import Mathlib

/-!
# VibeKeeper backend — verification of spec claims

Shallow embedding of the VibeKeeper backend (FastAPI CRUD app for tracking
personal occasions) together with proofs settling the frozen claims about the
natural-language specification.

The embedding covers:
* Python `datetime.strptime`/`strftime` semantics for the five formats used by
  `OccasionExtractor._normalise_date` (both the `mini-mvp` and the archived
  copy);
* a model of `json.loads` and `float()` coercion sufficient for
  `OccasionExtractor.extract_occasion_data` and the `POST /extract` handler;
* the JWT dev-login helpers (`create_access_token`, `get_or_create_user`,
  `dev_login`) and the `get_current_user` dependency, with tokens modelled
  symbolically (a signed token records its payload, secret and algorithm);
* the occasion CRUD handlers (`create_occasion`, `list_occasions`) and the
  `Occasion` model helpers `days_until` / `is_upcoming`;
* the archived regex-heuristic extractor.

Machine dates are triples of naturals; "now" / "today" are explicit
parameters wherever the Python code calls `datetime.now()` / `date.today()`.
-/

namespace VibeKeeper

/-! ## Python character/string primitives -/

/-- ASCII whitespace, as stripped by Python `str.strip()` (restricted to the
ASCII range; the repository only manipulates ASCII reply texts). -/
def isPySpace (c : Char) : Bool :=
  c = ' ' || c = '\t' || c = '\n' || c = '\r' || c = '\x0b' || c = '\x0c'

/-- ASCII decimal digit (the `\d` character class of the compiled
`_strptime` regexes, restricted to ASCII). -/
def isDigitC (c : Char) : Bool := '0' ≤ c && c ≤ '9'

/-- Numeric value of a digit character. -/
def dval (c : Char) : Nat := c.toNat - 48

/-- Digit character for `n % 10`. -/
def dc (n : Nat) : Char :=
  match n % 10 with
  | 0 => '0' | 1 => '1' | 2 => '2' | 3 => '3' | 4 => '4'
  | 5 => '5' | 6 => '6' | 7 => '7' | 8 => '8' | _ => '9'

/-- Python `str.strip()` on a character list. -/
def pyStrip (l : List Char) : List Char :=
  ((l.dropWhile isPySpace).reverse.dropWhile isPySpace).reverse

/-- Python `str.lower()` (ASCII). -/
def pyLower (l : List Char) : List Char := l.map Char.toLower

/-! ## `datetime.strptime` for the formats used by `_normalise_date`

CPython's `_strptime` compiles each format directive into a regex fragment:
`%Y ↦ \d\d\d\d`, `%m ↦ 1[0-2]|0[1-9]|[1-9]`,
`%d ↦ 3[01]|[12]\d|0[1-9]|[1-9]| [1-9]`, `%B`/`%b` to the month-name
alternation (matched case-insensitively), and a whitespace run in the format
to `\s+`.  The data string must be matched from the start; after the match,
remaining characters raise `ValueError` ("unconverted data remains"), and the
extracted fields are validated by constructing a `datetime.date`.

We embed this with candidate lists in backtracking-preference order: a token
maps the input to the list of `(value, rest)` pairs the regex engine would
try, in order; sequencing concatenates continuations, so the head of the
final list is the match the engine commits to. -/

/-- Candidate parses in regex backtracking-preference order. -/
abbrev Parses (α : Type) := List (α × List Char)

def pBind (p : Parses α) (f : α → List Char → Parses β) : Parses β :=
  p.flatMap fun ar => f ar.1 ar.2

/-- Regex fragment `\d\d\d\d` (`%Y`). -/
def tokY : List Char → Parses Nat
  | a :: b :: c :: d :: rest =>
      if isDigitC a && isDigitC b && isDigitC c && isDigitC d then
        [(1000 * dval a + 100 * dval b + 10 * dval c + dval d, rest)]
      else []
  | _ => []

/-- Regex fragment `1[0-2]|0[1-9]|[1-9]` (`%m`), alternatives in order. -/
def tokM (l : List Char) : Parses Nat :=
  (match l with
   | a :: b :: rest =>
       (if a = '1' && '0' ≤ b && b ≤ '2' then [(10 + dval b, rest)] else []) ++
       (if a = '0' && '1' ≤ b && b ≤ '9' then [(dval b, rest)] else [])
   | _ => []) ++
  (match l with
   | a :: rest => if '1' ≤ a && a ≤ '9' then [(dval a, rest)] else []
   | _ => [])

/-- Regex fragment `3[01]|[12]\d|0[1-9]|[1-9]| [1-9]` (`%d`). -/
def tokD (l : List Char) : Parses Nat :=
  (match l with
   | a :: b :: rest =>
       (if a = '3' && ('0' ≤ b && b ≤ '1') then [(30 + dval b, rest)] else []) ++
       (if ('1' ≤ a && a ≤ '2') && isDigitC b then [(10 * dval a + dval b, rest)] else []) ++
       (if a = '0' && '1' ≤ b && b ≤ '9' then [(dval b, rest)] else [])
   | _ => []) ++
  (match l with
   | a :: rest => if '1' ≤ a && a ≤ '9' then [(dval a, rest)] else []
   | _ => []) ++
  (match l with
   | a :: b :: rest => if a = ' ' && '1' ≤ b && b ≤ '9' then [(dval b, rest)] else []
   | _ => [])

/-- A literal character of the format string. -/
def litC (c : Char) : List Char → Parses Unit
  | a :: rest => if a = c then [((), rest)] else []
  | _ => []

/-- Length of the leading run of characters satisfying `p`. -/
def runLen (p : Char → Bool) : List Char → Nat
  | [] => 0
  | a :: rest => if p a then runLen p rest + 1 else 0

/-- Regex fragment `\s+` (whitespace run in the format): greedy, candidates
from the longest run down to a single character. -/
def ws1 (l : List Char) : Parses Unit :=
  (List.range (runLen isPySpace l)).map fun k =>
    ((), l.drop (runLen isPySpace l - k))

/-- English month names, full (`%B`) and abbreviated (`%b`), lowercase;
matching is case-insensitive. -/
def monthNamesFull : List (List Char) :=
  ["january".data, "february".data, "march".data, "april".data, "may".data,
   "june".data, "july".data, "august".data, "september".data, "october".data,
   "november".data, "december".data]

def monthNamesAbbr : List (List Char) :=
  ["jan".data, "feb".data, "mar".data, "apr".data, "may".data, "jun".data,
   "jul".data, "aug".data, "sep".data, "oct".data, "nov".data, "dec".data]

/-- Month-name token: the first name in the alternation that is a
case-insensitive prefix of the input (no English month name is a prefix of
another, so at most one matches). -/
def tokMonthName (names : List (List Char)) (l : List Char) : Parses Nat :=
  (go names 1).toList
where
  go : List (List Char) → Nat → Option (Nat × List Char)
    | [], _ => none
    | n :: ns, i =>
        if n.isPrefixOf (pyLower l) then some (i, l.drop n.length)
        else go ns (i + 1)

/-- Proleptic-Gregorian leap year (`calendar.isleap`). -/
def isLeap (y : Nat) : Bool := y % 4 = 0 && (y % 100 ≠ 0 || y % 400 = 0)

/-- Days in a month (`calendar.monthrange`). -/
def daysInMonth (y m : Nat) : Nat :=
  if m = 2 then (if isLeap y then 29 else 28)
  else if m = 4 || m = 6 || m = 9 || m = 11 then 30
  else 31

/-- The `datetime.date(y, m, d)` constructor succeeds. -/
def isValidYmd (y m d : Nat) : Bool :=
  1 ≤ y && y ≤ 9999 && 1 ≤ m && m ≤ 12 && 1 ≤ d && d ≤ daysInMonth y m

/-- `strptime` format `%Y-%m-%d`: token parse with candidates in preference
order; fields normalised to `(year, month, day)`. -/
def parseYmd (l : List Char) : Parses (Nat × Nat × Nat) :=
  pBind (tokY l) fun y r1 =>
  pBind (litC '-' r1) fun _ r2 =>
  pBind (tokM r2) fun m r3 =>
  pBind (litC '-' r3) fun _ r4 =>
  pBind (tokD r4) fun d r5 => [((y, m, d), r5)]

/-- `strptime` format `%d-%m-%Y`. -/
def parseDmy (l : List Char) : Parses (Nat × Nat × Nat) :=
  pBind (tokD l) fun d r1 =>
  pBind (litC '-' r1) fun _ r2 =>
  pBind (tokM r2) fun m r3 =>
  pBind (litC '-' r3) fun _ r4 =>
  pBind (tokY r4) fun y r5 => [((y, m, d), r5)]

/-- `strptime` format `%m-%d-%Y`. -/
def parseMdy (l : List Char) : Parses (Nat × Nat × Nat) :=
  pBind (tokM l) fun m r1 =>
  pBind (litC '-' r1) fun _ r2 =>
  pBind (tokD r2) fun d r3 =>
  pBind (litC '-' r3) fun _ r4 =>
  pBind (tokY r4) fun y r5 => [((y, m, d), r5)]

/-- `strptime` formats `%B %d %Y` / `%b %d %Y`. -/
def parseNdy (names : List (List Char)) (l : List Char) : Parses (Nat × Nat × Nat) :=
  pBind (tokMonthName names l) fun m r1 =>
  pBind (ws1 r1) fun _ r2 =>
  pBind (tokD r2) fun d r3 =>
  pBind (ws1 r3) fun _ r4 =>
  pBind (tokY r4) fun y r5 => [((y, m, d), r5)]

/-- `datetime.strptime(data, fmt)` on a date-only format: the regex commits
to the first successful token path; leftover input then raises
("unconverted data remains"), and the extracted triple must form a valid
`datetime.date`.  Returns `(year, month, day)` on success. -/
def strptimeWith (fmt : List Char → Parses (Nat × Nat × Nat)) (l : List Char) :
    Option (Nat × Nat × Nat) :=
  match fmt l with
  | [] => none
  | (ymd, rest) :: _ =>
      if rest.isEmpty && isValidYmd ymd.1 ymd.2.1 ymd.2.2 then some ymd else none

/-- `strftime("%Y-%m-%d")`: zero-padded ISO rendering. -/
def strftimeYmd (y m d : Nat) : List Char :=
  [dc (y / 1000), dc (y / 100), dc (y / 10), dc y, '-',
   dc (m / 10), dc m, '-', dc (d / 10), dc d]

/-! ## `OccasionExtractor._normalise_date`

Translated from `src/mini-mvp/backend/ai_extractor.py` lines 104–139.  The
current year (`datetime.now().year`) is an explicit parameter. -/

/-- `re.fullmatch(r"\d{1,2}-\d{1,2}", candidate)`. -/
def isDayMonthShape (l : List Char) : Bool :=
  match l with
  | [a, h, b] => isDigitC a && h = '-' && isDigitC b
  | [a, b, h, d] =>
      (isDigitC a && b = '-' && isDigitC h && isDigitC d) ||
      (isDigitC a && isDigitC b && h = '-' && isDigitC d)
  | [a, b, h, d, e] => isDigitC a && isDigitC b && h = '-' && isDigitC d && isDigitC e
  | _ => false

/-- The `known_formats` loop: first format that parses wins. -/
def tryKnownFormats (l : List Char) : Option (Nat × Nat × Nat) :=
  match strptimeWith parseYmd l with
  | some t => some t
  | none =>
    match strptimeWith parseDmy l with
    | some t => some t
    | none =>
      match strptimeWith parseMdy l with
      | some t => some t
      | none =>
        match strptimeWith (parseNdy monthNamesFull) l with
        | some t => some t
        | none => strptimeWith (parseNdy monthNamesAbbr) l

/-- The candidate string `_normalise_date` builds before the format loop:
`re.sub(r"[/.]", "-", date_str.strip())`, with the current year prefixed
when the result matches `\d{1,2}-\d{1,2}` (`f"{current_year}-{candidate}"`,
where `current_year = str(datetime.now().year)`). -/
def candidateOf (currentYear : Nat) (dateStr : String) : List Char :=
  let c := (pyStrip dateStr.data).map fun ch =>
    if ch = '/' || ch = '.' then '-' else ch
  if isDayMonthShape c then (toString currentYear).data ++ '-' :: c else c

/-- `OccasionExtractor._normalise_date` (mini-mvp copy, ai_extractor.py
lines 104–139): return the input unchanged when it already parses as
`%Y-%m-%d`; otherwise strip it, replace `/` and `.` by `-`, prefix the
current year onto a bare `d{1,2}-d{1,2}`, try the known formats in order and
reformat the first success with `strftime("%Y-%m-%d")`. -/
def pyNormaliseDate (currentYear : Nat) (dateStr : String) : Option String :=
  if (strptimeWith parseYmd dateStr.data).isSome then some dateStr
  else
    match tryKnownFormats (candidateOf currentYear dateStr) with
    | some (y, m, d) => some ⟨strftimeYmd y m d⟩
    | none => none

/-- `OccasionExtractor._normalise_date`, archived copy
(`src/archive/mini-mvp/backend/ai_extractor.py` lines 101–136).  The archived
file's helper is character-for-character the same Python function, so its
embedding takes the same steps through the shared `strptime` model. -/
def archNormaliseDate (currentYear : Nat) (dateStr : String) : Option String :=
  if (strptimeWith parseYmd dateStr.data).isSome then some dateStr
  else
    match tryKnownFormats (candidateOf currentYear dateStr) with
    | some (y, m, d) => some ⟨strftimeYmd y m d⟩
    | none => none

/-- A ten-character, zero-padded `YYYY-MM-DD` string (the shape the spec
calls "a valid ISO `YYYY-MM-DD` date string"). -/
def isCanonicalIsoDate (s : String) : Bool :=
  match s.data with
  | [a, b, c, d, h1, e, f, h2, g, i] =>
      isDigitC a && isDigitC b && isDigitC c && isDigitC d && h1 = '-' &&
      isDigitC e && isDigitC f && h2 = '-' && isDigitC g && isDigitC i
  | _ => false

/-! ## Calendar dates (`datetime.date`)

`Occasion.occasion_date` is a SQL `Date`; `days_until` subtracts
`date.today()` from it, which CPython computes via `toordinal()` (the
proleptic-Gregorian rata die). -/

/-- A calendar date. -/
structure PyDate where
  year : Nat
  month : Nat
  day : Nat
deriving DecidableEq, Repr

/-- A constructible `datetime.date`. -/
def validPyDate (dt : PyDate) : Bool := isValidYmd dt.year dt.month dt.day

/-- Days in the months strictly before month `m`. -/
def daysBeforeMonth (leap : Bool) (m : Nat) : Nat :=
  (match m with
   | 1 => 0 | 2 => 31 | 3 => 59 | 4 => 90 | 5 => 120 | 6 => 151 | 7 => 181
   | 8 => 212 | 9 => 243 | 10 => 273 | 11 => 304 | _ => 334) +
  (if leap && 3 ≤ m then 1 else 0)

/-- Days before January 1 of year `y` (rata die). -/
def yearDays (y : Nat) : Nat :=
  365 * (y - 1) + (y - 1) / 4 + (y - 1) / 400 - (y - 1) / 100

/-- `date.toordinal()`: January 1 of year 1 is day 1. -/
def dateOrdinal (dt : PyDate) : Nat :=
  yearDays dt.year + daysBeforeMonth (isLeap dt.year) dt.month + dt.day

/-- Lexicographic date comparison (`date.__lt__`, which CPython implements
as tuple comparison on `(year, month, day)`). -/
def dateLexLt (a b : PyDate) : Bool :=
  a.year < b.year ||
    (a.year = b.year &&
      (a.month < b.month || (a.month = b.month && a.day < b.day)))

/-! ## ORM model and schemas (`models.py`, `schemas.py`)

The database is modelled as the list of rows in insertion order (a `select`
without `order_by` returns SQLite rows in rowid order).  Confidence scores
are exact decimals (`PyFloat`): the decimal value a Python float literal or
`float()` coercion denotes, kept exact rather than rounded to binary64.  The `schemas.py` module of the mini-mvp backend is not
present in the source tree; its `OccasionExtracted` shape is taken from the
archived copy `src/archive/mini-mvp/backend/schemas.py`, which the mini-mvp
handlers import field-for-field. -/

/-- An exact decimal, denoting `mant * 10 ^ exp10`: the model of a Python
float value. -/
structure PyFloat where
  mant : Int
  exp10 : Int
deriving DecidableEq, Repr

/-- Value comparison of exact decimals (`a <= b`). -/
def PyFloat.le (a b : PyFloat) : Bool :=
  a.mant * 10 ^ (a.exp10 - min a.exp10 b.exp10).toNat ≤
    b.mant * 10 ^ (b.exp10 - min a.exp10 b.exp10).toNat

inductive OccasionStatus where
  | active | completed | dismissed
deriving DecidableEq, BEq, Repr

/-- A `users` row. -/
structure UserRec where
  id : Nat
  email : String
  full_name : String
  provider : String
deriving DecidableEq, Repr

/-- An `occasions` row.  `person`, `occasion_type`, `occasion_date`,
`owner_id` and `raw_input` are `nullable=False` columns, so they are plain
fields; the optional columns are `Option`s. -/
structure OccasionRec where
  id : Nat
  owner_id : Nat
  person : String
  occasion_type : String
  occasion_date : PyDate
  person_relationship : Option String
  notes : Option String
  confidence_score : Option PyFloat
  status : OccasionStatus
  raw_input : String
deriving DecidableEq, Repr

/-- `Occasion.days_until()`: `(self.occasion_date - today).days`. -/
def daysUntil (o : OccasionRec) (today : PyDate) : Int :=
  (dateOrdinal o.occasion_date : Int) - (dateOrdinal today : Int)

/-- `Occasion.is_upcoming()`: `self.days_until() >= 0`. -/
def isUpcoming (o : OccasionRec) (today : PyDate) : Bool :=
  0 ≤ daysUntil o today

/-- `UserCreate` request schema (`provider` defaults to `"dev"`). -/
structure UserCreate where
  email : String
  full_name : String
  provider : String
deriving Repr

/-- `OccasionExtracted`: a validated create/extract payload. -/
structure ExtractedPayload where
  person : String
  occasion_type : String
  occasion_date : PyDate
  person_relationship : Option String
  notes : Option String
  confidence_score : PyFloat
  raw_input : String
deriving Repr

/-- `OccasionFilter` query parameters. -/
structure OccasionFilter where
  person : Option String
  occasion_type : Option String
  status : Option OccasionStatus
  upcoming_only : Bool
deriving Repr

/-! ## JWT helpers (`auth.py`)

Tokens are modelled symbolically: a signed token records its claims together
with the secret and algorithm it was signed with.  The `sub` claim is a
JSON value — `create_access_token` stores the user's id as a JSON integer,
while an arbitrary token may carry a string or no `sub` at all.
`jose.jwt.decode` succeeds exactly when secret and algorithm match the
configuration, the token has not expired (`verify_exp`), and a present
`sub` claim is a string (`verify_sub`: jose raises
`JWTClaimsError("Subject must be a string.")` otherwise — which rejects the
integer-`sub` tokens `create_access_token` itself mints).  `now` is the
POSIX time of `datetime.now(timezone.utc)` in seconds. -/

/-- The configuration fields `auth.py` reads from `Settings`. -/
structure AppSettings where
  jwt_secret_key : String
  jwt_algorithm : String
  jwt_expiration_hours : Nat
deriving Repr

/-- A JSON `sub` claim: an integer (as minted by `create_access_token`) or
a string. -/
inductive SubClaim where
  | subInt (n : Nat)
  | subStr (s : String)
deriving DecidableEq, Repr

/-- A JWT as produced by `jose.jwt.encode`: the payload claims plus the key
material it was signed with. -/
structure JwtToken where
  sub : Option SubClaim
  email : Option String
  exp : Nat
  secret : String
  alg : String
deriving DecidableEq, Repr

/-- `create_access_token({"sub": user.id, "email": user.email})` with the
default expiry of `ACCESS_TOKEN_EXPIRE_HOURS` hours (auth.py lines 32–42).
`user.id` is an `int`, so the minted `sub` claim is a JSON integer. -/
def create_access_token (cfg : AppSettings) (now : Nat) (sub : Nat)
    (email : String) : JwtToken :=
  { sub := some (.subInt sub), email := some email,
    exp := now + 3600 * cfg.jwt_expiration_hours,
    secret := cfg.jwt_secret_key, alg := cfg.jwt_algorithm }

/-- jose's `_validate_sub` under the default `verify_sub`: a present `sub`
must be a string. -/
def joseSubOk : Option SubClaim → Bool
  | some (.subInt _) => false
  | _ => true

/-- `jose.jwt.decode(token, settings.jwt_secret_key, algorithms=[ALGORITHM])`
succeeds (no `JWTError`): signature key and algorithm match, not expired,
and any `sub` claim is a string. -/
def jwtDecodeOk (cfg : AppSettings) (now : Nat) (t : JwtToken) : Bool :=
  t.secret = cfg.jwt_secret_key && t.alg = cfg.jwt_algorithm && now < t.exp &&
    joseSubOk t.sub

/-- Digits to the natural number they denote (most significant first). -/
def digitsToNat (ds : List Char) : Nat :=
  ds.foldl (fun n c => 10 * n + dval c) 0

/-- pydantic `int` coercion from a decoded claim value: an int passes; a
string passes when it spells an integer (optional sign, digits). -/
def pyIntStr (s : String) : Option Int :=
  match s.data with
  | '-' :: rest =>
      if !rest.isEmpty && rest.all isDigitC then
        some (-(digitsToNat rest : Int))
      else none
  | '+' :: rest =>
      if !rest.isEmpty && rest.all isDigitC then some (digitsToNat rest : Int)
      else none
  | l =>
      if !l.isEmpty && l.all isDigitC then some (digitsToNat l : Int)
      else none

/-- A model of `EmailStr`'s syntactic validation (email-validator): one `@`,
non-empty local part, domain with a dot and non-empty labels, no
whitespace — sufficient for the addresses this repository handles. -/
def isEmailStr (e : String) : Bool :=
  match e.data.splitOn '@' with
  | [l, d] =>
      !l.isEmpty && !d.isEmpty && (d.splitOn '.').length ≥ 2 &&
        (d.splitOn '.').all (fun p => !p.isEmpty) &&
        e.data.all (fun c => !isPySpace c)
  | _ => false

/-- The `TokenData` schema (`user_id: int`, `email: EmailStr`). -/
structure TokenData where
  user_id : Int
  email : String
deriving DecidableEq, Repr

/-- `TokenData(user_id=payload.get("sub"), email=payload.get("email"))`
(auth.py line 48): pydantic validation after a successful decode.  A
missing or non-integral `sub`, or a missing or invalid `email`, raises a
`ValidationError` — which is not a `JWTError`, so `verify_token` does not
catch it. -/
def verifyTokenData (t : JwtToken) : Option TokenData :=
  match t.sub, t.email with
  | some sc, some e =>
      (match sc with
       | .subInt n => some (n : Int)
       | .subStr s => pyIntStr s).bind fun uid =>
        if isEmailStr e then some ⟨uid, e⟩ else none
  | _, _ => none

/-- Fresh primary key for an insert (SQLite rowid: max + 1). -/
def freshUserId (db : List UserRec) : Nat :=
  (db.foldr (fun u m => max u.id m) 0) + 1

/-- `get_or_create_user` (auth.py lines 58–73): look the user up by email;
create the row if absent.  Returns the user and the updated `users` table. -/
def get_or_create_user (u : UserCreate) (db : List UserRec) :
    UserRec × List UserRec :=
  match db.find? fun x => x.email = u.email with
  | some user => (user, db)
  | none =>
      let user : UserRec :=
        { id := freshUserId db, email := u.email,
          full_name := u.full_name, provider := u.provider }
      (user, db ++ [user])

/-- The `Token` response of `dev_login`. -/
structure TokenResponse where
  access_token : JwtToken
  token_type : String
  user : UserRec
deriving Repr

/-- `POST /login/test` (api/auth.py lines 24–28): get or create the user,
then hand back a bearer token for them. -/
def dev_login (cfg : AppSettings) (now : Nat) (u : UserCreate)
    (db : List UserRec) : TokenResponse × List UserRec :=
  let res := get_or_create_user u db
  ({ access_token := create_access_token cfg now res.1.id res.1.email,
     token_type := "bearer", user := res.1 }, res.2)

/-- `get_current_user` (auth.py lines 81–99): 401 without credentials, 401
when `jwt.decode` raises a `JWTError`, an uncaught `ValidationError`
(surfacing as HTTP 500) when the `TokenData` construction fails, and 401
when no user has the token's `sub` as id. -/
def get_current_user (cfg : AppSettings) (now : Nat)
    (creds : Option JwtToken) (db : List UserRec) : Except Nat UserRec :=
  match creds with
  | none => .error 401
  | some tok =>
      if jwtDecodeOk cfg now tok then
        match verifyTokenData tok with
        | none => .error 500
        | some td =>
            match db.find? fun u => (u.id : Int) = td.user_id with
            | some u => .ok u
            | none => .error 401
      else .error 401

/-! ## Occasion endpoints (`api/occasions.py`) -/

/-- Fresh primary key for an occasion insert. -/
def freshOccId (occs : List OccasionRec) : Nat :=
  (occs.foldr (fun o m => max o.id m) 0) + 1

/-- `POST /occasions/` (api/occasions.py lines 55–75): authenticate, then
insert a row built from the validated payload; the `status` column takes its
declared default `ACTIVE`.  Returns the response and the updated table. -/
def create_occasion (cfg : AppSettings) (now : Nat) (creds : Option JwtToken)
    (users : List UserRec) (occs : List OccasionRec) (inp : ExtractedPayload) :
    Except Nat OccasionRec × List OccasionRec :=
  match get_current_user cfg now creds users with
  | .error e => (.error e, occs)
  | .ok u =>
      let occ : OccasionRec :=
        { id := freshOccId occs, owner_id := u.id, person := inp.person,
          occasion_type := inp.occasion_type,
          occasion_date := inp.occasion_date,
          person_relationship := inp.person_relationship, notes := inp.notes,
          confidence_score := some inp.confidence_score, status := .active,
          raw_input := inp.raw_input }
      (.ok occ, occs ++ [occ])

/-- SQL `col ILIKE '%' || pat || '%'`: case-insensitive containment (the
handler interpolates the raw filter between two `%`s). -/
def ilikeContains (pat : String) (s : String) : Bool :=
  (pyLower s.data).tails.any fun t => (pyLower pat.data).isPrefixOf t

/-- Python truthiness of an optional string query parameter (`if
filters.person:`): `None` and the empty string are falsy. -/
def optTruthy : Option String → Bool
  | none => false
  | some s => !s.isEmpty

/-- The optional `where` clauses of `list_occasions`: each filter applies
only when the query parameter is truthy (`if filters.person:` — `None` and
the empty string are skipped). -/
def otherFilters (f : OccasionFilter) (o : OccasionRec) : Bool :=
  (match f.person with
   | some p => if p.isEmpty then true else ilikeContains p o.person
   | none => true) &&
  (match f.occasion_type with
   | some t => if t.isEmpty then true else o.occasion_type = t
   | none => true) &&
  (match f.status with
   | some st => o.status == st
   | none => true)

/-- The conjunction of `where` clauses `list_occasions` builds: the
unconditional owner scoping plus the requested filters. -/
def matchesFilters (f : OccasionFilter) (uid : Nat) (o : OccasionRec) : Bool :=
  (o.owner_id == uid) && otherFilters f o

/-- `GET /occasions/` (api/occasions.py lines 78–99): authenticate, select
the user's rows matching the filters, then drop non-upcoming rows in Python
when `upcoming_only` is set. -/
def list_occasions (cfg : AppSettings) (now : Nat) (creds : Option JwtToken)
    (users : List UserRec) (occs : List OccasionRec) (f : OccasionFilter)
    (today : PyDate) : Except Nat (List OccasionRec) :=
  match get_current_user cfg now creds users with
  | .error e => .error e
  | .ok u =>
      let rows := occs.filter (matchesFilters f u.id)
      .ok (if f.upcoming_only then rows.filter (fun o => isUpcoming o today)
           else rows)

/-! ## Concrete fixtures for witness instances -/

def cfgW : AppSettings := ⟨"secret", "HS256", 24⟩

def tokW : JwtToken :=
  ⟨some (.subStr "1"), some "a@b.c", 86400, "secret", "HS256"⟩

/-- A verifying token whose string `sub` is not an integer: jose's decode
accepts it, the `TokenData` construction does not. -/
def tokBad : JwtToken :=
  ⟨some (.subStr "abc"), some "a@b.c", 86400, "secret", "HS256"⟩

def userW : UserRec := ⟨1, "a@b.c", "A", "dev"⟩

def inpW : ExtractedPayload :=
  ⟨"Ana", "birthday", ⟨2025, 4, 4⟩, none, none, ⟨9, -1⟩, "raw"⟩

def occW : OccasionRec :=
  ⟨1, 1, "Ana", "birthday", ⟨2025, 4, 4⟩, none, none, some ⟨9, -1⟩, .active,
   "raw"⟩

def occB : OccasionRec :=
  ⟨2, 2, "Bo", "wedding", ⟨2025, 6, 1⟩, none, none, none, .active, "rawB"⟩

/-- A sample LLM reply whose confidence is not coercible to float. -/
def replyBadConf : String :=
  "\x7b\"person\": \"Ana\", \"occasion_type\": \"birthday\", \"date\": \"2025-04-04\", \"confidence\": \"high\"\x7d"

/-- A sample LLM reply whose confidence lies outside the response schema's
`[0, 1]` range. -/
def replyHighConf : String :=
  "\x7b\"person\": \"Ana\", \"occasion_type\": \"birthday\", \"date\": \"2025-04-04\", \"confidence\": 1.5\x7d"

/-! ## A model of `json.loads`

`extract_occasion_data` feeds the stripped LLM reply to `json.loads`.  We
embed a JSON parser: values are `PyJson`; numbers are kept as the exact
decimal they denote (`PyFloat`); objects are association lists with unique
keys in first-occurrence order, later duplicates overwriting earlier values
(CPython dict semantics).  Fuel bounds the recursion; it is instantiated
generously from the input length, which bounds the parser's call depth since
every recursive call first consumes at least one character. -/

inductive PyJson where
  | jnull
  | jbool (b : Bool)
  | jnum (v : PyFloat)
  | jstr (s : String)
  | jarr (xs : List PyJson)
  | jobj (kvs : List (String × PyJson))

/-- Insert preserving first-occurrence position, overwriting the value of an
existing key. -/
def upsert (kvs : List (String × PyJson)) (k : String) (v : PyJson) :
    List (String × PyJson) :=
  match kvs with
  | [] => [(k, v)]
  | (k', v') :: rest =>
      if k' = k then (k', v) :: rest else (k', v') :: upsert rest k v

/-- JSON structural whitespace. -/
def isJsonWs (c : Char) : Bool :=
  c = ' ' || c = '\t' || c = '\n' || c = '\r'

def skipWs (l : List Char) : List Char := l.dropWhile isJsonWs

def hexVal (c : Char) : Option Nat :=
  if isDigitC c then some (dval c)
  else if 'a' ≤ c && c ≤ 'f' then some (c.toNat - 87)
  else if 'A' ≤ c && c ≤ 'F' then some (c.toNat - 55)
  else none

def parseHex4 : List Char → Option (Nat × List Char)
  | a :: b :: c :: d :: rest =>
      match hexVal a, hexVal b, hexVal c, hexVal d with
      | some x, some y, some z, some w =>
          some (4096 * x + 256 * y + 16 * z + w, rest)
      | _, _, _, _ => none
  | _ => none

/-- JSON string body after the opening quote: standard escapes, `\uXXXX`
with surrogate-pair combination, raw control characters rejected. -/
def parseJStrAux (fuel : Nat) (acc : List Char) (l : List Char) :
    Option (String × List Char) :=
  match fuel with
  | 0 => none
  | fuel + 1 =>
    match l with
    | [] => none
    | '"' :: rest => some (⟨acc.reverse⟩, rest)
    | '\\' :: e :: rest =>
        match e with
        | '"' => parseJStrAux fuel ('"' :: acc) rest
        | '\\' => parseJStrAux fuel ('\\' :: acc) rest
        | '/' => parseJStrAux fuel ('/' :: acc) rest
        | 'b' => parseJStrAux fuel ('\x08' :: acc) rest
        | 'f' => parseJStrAux fuel ('\x0c' :: acc) rest
        | 'n' => parseJStrAux fuel ('\n' :: acc) rest
        | 'r' => parseJStrAux fuel ('\r' :: acc) rest
        | 't' => parseJStrAux fuel ('\t' :: acc) rest
        | 'u' =>
            match parseHex4 rest with
            | none => none
            | some (c1, rest1) =>
                if 0xD800 ≤ c1 && c1 ≤ 0xDBFF then
                  match rest1 with
                  | '\\' :: 'u' :: rest2 =>
                      match parseHex4 rest2 with
                      | some (c2, rest3) =>
                          if 0xDC00 ≤ c2 && c2 ≤ 0xDFFF then
                            parseJStrAux fuel
                              (Char.ofNat (0x10000 +
                                (c1 - 0xD800) * 1024 + (c2 - 0xDC00)) :: acc)
                              rest3
                          else parseJStrAux fuel (Char.ofNat c1 :: acc) rest1
                      | none => parseJStrAux fuel (Char.ofNat c1 :: acc) rest1
                  | _ => parseJStrAux fuel (Char.ofNat c1 :: acc) rest1
                else parseJStrAux fuel (Char.ofNat c1 :: acc) rest1
        | _ => none
    | c :: rest =>
        if c.toNat < 0x20 then none else parseJStrAux fuel (c :: acc) rest

/-- JSON number at the current position, maximal munch of
`-?(0|[1-9]\d*)(\.\d+)?([eE][-+]?\d+)?`, valued as an exact decimal. -/
def parseJNum (l : List Char) : Option (PyFloat × List Char) :=
  let (neg, l1) := match l with
    | '-' :: rest => (true, rest)
    | _ => (false, l)
  match l1 with
  | c :: _ =>
    if isDigitC c then
      let intDs := l1.takeWhile isDigitC
      let intDs := if c = '0' then ['0'] else intDs
      let l2 := l1.drop intDs.length
      let (fracDs, l3) := match l2 with
        | '.' :: r =>
            let ds := r.takeWhile isDigitC
            if ds.isEmpty then ([], l2) else (ds, r.drop ds.length)
        | _ => ([], l2)
      let (expVal, l4) : Int × List Char := match l3 with
        | e :: r =>
            if e = 'e' || e = 'E' then
              let (esign, r1) : Int × List Char := match r with
                | '-' :: r' => (-1, r')
                | '+' :: r' => (1, r')
                | _ => (1, r)
              let eds := r1.takeWhile isDigitC
              if eds.isEmpty then (0, l3)
              else (esign * (digitsToNat eds : Int), r1.drop eds.length)
            else (0, l3)
        | _ => (0, l3)
      let mant : Int := (digitsToNat (intDs ++ fracDs) : Int)
      some (⟨if neg then -mant else mant, expVal - (fracDs.length : Int)⟩, l4)
    else none
  | [] => none

mutual

/-- A JSON value, leading whitespace allowed. -/
def jsonVal (fuel : Nat) (l : List Char) : Option (PyJson × List Char) :=
  match fuel with
  | 0 => none
  | fuel + 1 =>
    match skipWs l with
    | 'n' :: 'u' :: 'l' :: 'l' :: rest => some (.jnull, rest)
    | 't' :: 'r' :: 'u' :: 'e' :: rest => some (.jbool true, rest)
    | 'f' :: 'a' :: 'l' :: 's' :: 'e' :: rest => some (.jbool false, rest)
    | '"' :: rest =>
        (parseJStrAux (rest.length + 1) [] rest).map fun sr => (.jstr sr.1, sr.2)
    | '[' :: rest =>
        (match skipWs rest with
         | ']' :: rest' => some (.jarr [], rest')
         | _ => (jsonArrItems fuel rest).map fun ar => (.jarr ar.1, ar.2))
    | '{' :: rest =>
        (match skipWs rest with
         | '}' :: rest' => some (.jobj [], rest')
         | _ => (jsonObjItems fuel [] rest).map fun ar => (.jobj ar.1, ar.2))
    | l' => (parseJNum l').map fun vr => (.jnum vr.1, vr.2)

/-- Array elements up to the closing bracket. -/
def jsonArrItems (fuel : Nat) (l : List Char) : Option (List PyJson × List Char) :=
  match fuel with
  | 0 => none
  | fuel + 1 =>
    match jsonVal fuel l with
    | none => none
    | some (v, rest) =>
        match skipWs rest with
        | ']' :: rest' => some ([v], rest')
        | ',' :: rest' =>
            (jsonArrItems fuel rest').map fun ar => (v :: ar.1, ar.2)
        | _ => none

/-- Object members up to the closing brace; later duplicate keys overwrite
earlier values in place. -/
def jsonObjItems (fuel : Nat) (acc : List (String × PyJson)) (l : List Char) :
    Option (List (String × PyJson) × List Char) :=
  match fuel with
  | 0 => none
  | fuel + 1 =>
    match skipWs l with
    | '"' :: rest =>
        match parseJStrAux (rest.length + 1) [] rest with
        | none => none
        | some (k, rest1) =>
            match skipWs rest1 with
            | ':' :: rest2 =>
                match jsonVal fuel rest2 with
                | none => none
                | some (v, rest3) =>
                    match skipWs rest3 with
                    | '}' :: rest4 => some (upsert acc k v, rest4)
                    | ',' :: rest4 => jsonObjItems fuel (upsert acc k v) rest4
                    | _ => none
            | _ => none
    | _ => none

end

/-- `json.loads`: parse one value with optional surrounding whitespace. -/
def jsonLoads (s : String) : Option PyJson :=
  match jsonVal (2 * s.data.length + 2) s.data with
  | some (v, rest) => if (skipWs rest).isEmpty then some v else none
  | none => none

/-! ## `float()` coercion and the mini-mvp extractor -/

/-- One-or-more digits with single underscores allowed between digits
(PEP 515), as accepted by `float()` and `int()`. -/
def digitsU : List Char → Option (List Char × List Char)
  | c :: rest =>
      if isDigitC c then some (go rest [c]) else none
  | [] => none
where
  go : List Char → List Char → List Char × List Char
    | '_' :: c :: rest, acc =>
        if isDigitC c then go rest (c :: acc) else (acc.reverse, '_' :: c :: rest)
    | c :: rest, acc =>
        if isDigitC c then go rest (c :: acc) else (acc.reverse, c :: rest)
    | [], acc => (acc.reverse, [])

/-- `float(s)` on a string: strip whitespace, optional sign, decimal digits
with optional fraction and exponent.  (`inf`/`nan` spellings denote values
outside the exact-decimal model and are not produced by this repository's
replies; they are treated as failures.) -/
def pyFloatOfString (s : String) : Option PyFloat :=
  let l := pyStrip s.data
  let (neg, l1) : Bool × List Char := match l with
    | '-' :: rest => (true, rest)
    | '+' :: rest => (false, rest)
    | _ => (false, l)
  let intFrac : Option (List Char × List Char × List Char) :=
    match digitsU l1 with
    | some (ids, r) =>
        match r with
        | '.' :: r1 =>
            (match digitsU r1 with
             | some (fds, r2) => some (ids, fds, r2)
             | none => some (ids, [], r1))
        | _ => some (ids, [], r)
    | none =>
        match l1 with
        | '.' :: r1 =>
            (match digitsU r1 with
             | some (fds, r2) => some ([], fds, r2)
             | none => none)
        | _ => none
  match intFrac with
  | none => none
  | some (ids, fds, r) =>
      if ids.isEmpty && fds.isEmpty then none
      else
        let expPart : Option (Int × List Char) :=
          match r with
          | e :: r1 =>
              if e = 'e' || e = 'E' then
                let (es, r2) : Int × List Char := match r1 with
                  | '-' :: r' => (-1, r')
                  | '+' :: r' => (1, r')
                  | _ => (1, r1)
                match digitsU r2 with
                | some (eds, r3) => some (es * (digitsToNat eds : Int), r3)
                | none => none
              else none
          | [] => some (0, [])
        match (if r.isEmpty then some ((0 : Int), ([] : List Char)) else expPart) with
        | none => none
        | some (ev, rest) =>
            if rest.isEmpty then
              let mant : Int := (digitsToNat (ids ++ fds) : Int)
              some ⟨if neg then -mant else mant, ev - (fds.length : Int)⟩
            else none

/-- `float(x)` on a parsed JSON value: numbers and booleans coerce, strings
are parsed, everything else raises `TypeError`. -/
def pyFloatOfJson : PyJson → Option PyFloat
  | .jnum v => some v
  | .jbool b => some ⟨if b then 1 else 0, 0⟩
  | .jstr s => pyFloatOfString s
  | _ => none

/-- `str(x).lower() in {"", "null", "none"}` for a parsed JSON value. -/
def nullLike : PyJson → Bool
  | .jstr s =>
      pyLower s.data = [] || pyLower s.data = "null".data ||
        pyLower s.data = "none".data
  | .jnull => true
  | _ => false

/-- `data.pop(k)` (key removal; parsed objects have unique keys). -/
def dictPop (kvs : List (String × PyJson)) (k : String) :
    List (String × PyJson) :=
  kvs.filter fun kv => kv.1 ≠ k

/-- The null-string cleaning loop body: `if key in data and
str(data[key]).lower() in {"", "null", "none"}: data[key] = None`. -/
def cleanKey (kvs : List (String × PyJson)) (k : String) :
    List (String × PyJson) :=
  match kvs.lookup k with
  | some v => if nullLike v then upsert kvs k .jnull else kvs
  | none => kvs

def requiredKeys : List String := ["person", "occasion_type", "date", "confidence"]

/-- `data["date"] = self._normalise_date(data["date"])` and the null-string
cleaning loop, then `return data, confidence` — the tail of
`extract_occasion_data` (ai_extractor.py lines 79–89).  A failed
normalisation returns `None`. -/
def normStage (currentYear : Nat) (kvs : List (String × PyJson))
    (conf : PyFloat) (ds : String) :
    Option (List (String × PyJson) × PyFloat) :=
  match pyNormaliseDate currentYear ds with
  | none => none
  | some iso =>
      some (cleanKey (cleanKey
        (upsert (dictPop kvs "confidence") "date" (.jstr iso))
        "relationship") "notes", conf)

/-- The `data["date"]` access feeding `_normalise_date`: a non-string value
raises `TypeError` inside `strptime`, caught by the broad `except`. -/
def dateStage (currentYear : Nat) (kvs : List (String × PyJson))
    (conf : PyFloat) : Option (List (String × PyJson) × PyFloat) :=
  match (dictPop kvs "confidence").lookup "date" with
  | some (.jstr ds) => normStage currentYear kvs conf ds
  | some _ => none
  | none => none

/-- `confidence = float(data.pop("confidence"))` (ai_extractor.py line 77):
an uncoercible value raises, caught by the broad `except`. -/
def confStage (currentYear : Nat) (kvs : List (String × PyJson))
    (cv : PyJson) : Option (List (String × PyJson) × PyFloat) :=
  match pyFloatOfJson cv with
  | none => none
  | some conf => dateStage currentYear kvs conf

/-- The body of `OccasionExtractor.extract_occasion_data` (mini-mvp copy,
ai_extractor.py lines 21–98) on the parsed JSON value: required-key
validation, then the confidence/date/cleaning stages; a non-object value
raises `AttributeError` on `.keys()`, caught by the broad `except` as
`None`. -/
def extractFromJson (currentYear : Nat) (j : PyJson) :
    Option (List (String × PyJson) × PyFloat) :=
  match j with
  | .jobj kvs =>
      if requiredKeys.all fun k => (kvs.lookup k).isSome then
        match kvs.lookup "confidence" with
        | some cv => confStage currentYear kvs cv
        | none => none
      else none
  | _ => none

/-- `OccasionExtractor.extract_occasion_data`.  The completion call is
external: its outcome is the `reply` parameter (`none` models the call
itself raising, caught by the broad `except`).  The reply text is stripped;
a case-insensitive `null` signals no extraction; the text is parsed with
`json.loads` (`JSONDecodeError` caught as `None`); the rest of the body runs
on the parsed value. -/
def extract_occasion_data (currentYear : Nat) (reply : Option String) :
    Option (List (String × PyJson) × PyFloat) :=
  match reply with
  | none => none
  | some raw =>
    if pyLower (pyStrip raw.data) = "null".data then none
    else
      match jsonLoads ⟨pyStrip raw.data⟩ with
      | none => none
      | some v => extractFromJson currentYear v

/-! ## `POST /extract` (api/occasions.py lines 31–47)

On `None` the handler raises HTTP 422; otherwise it constructs an
`OccasionExtracted` response, whose pydantic validation can itself fail
(propagating as a server error distinct from 422) when a field violates the
schema: `person` a string of 1–100 characters, `occasion_type` 1–50,
`occasion_date` a parseable ISO date, `relationship`/`notes` optional
strings of at most 50/500 characters, `confidence_score` a float in
`[0, 1]`. -/

inductive EPError where
  | unprocessable
  | validationError
deriving DecidableEq, Repr

/-- pydantic string field with length bounds. -/
def pdStr (v : PyJson) (minLen maxLen : Nat) : Option String :=
  match v with
  | .jstr s => if minLen ≤ s.length && s.length ≤ maxLen then some s else none
  | _ => none

/-- pydantic optional string field (`None` and missing accepted). -/
def pdOptStr (v : Option PyJson) (maxLen : Nat) : Option (Option String) :=
  match v with
  | none => some none
  | some .jnull => some none
  | some (.jstr s) => if s.length ≤ maxLen then some (some s) else none
  | some _ => none

/-- pydantic `date` field from a string: strict `YYYY-MM-DD`. -/
def parseIsoDate (s : String) : Option PyDate :=
  match s.data with
  | [a, b, c, d, h1, e, f, h2, g, i] =>
      if isDigitC a && isDigitC b && isDigitC c && isDigitC d && h1 = '-' &&
          isDigitC e && isDigitC f && h2 = '-' && isDigitC g && isDigitC i then
        let y := 1000 * dval a + 100 * dval b + 10 * dval c + dval d
        let m := 10 * dval e + dval f
        let dd := 10 * dval g + dval i
        if isValidYmd y m dd then some ⟨y, m, dd⟩ else none
      else none
  | _ => none

/-- The `OccasionExtracted(...)` construction of the handler body, with its
pydantic field validation. -/
def validateExtracted (data : List (String × PyJson)) (conf : PyFloat)
    (rawInput : String) : Except EPError ExtractedPayload :=
  match data.lookup "person", data.lookup "occasion_type",
      data.lookup "date" with
  | some pv, some tv, some (.jstr ds) =>
      (match pdStr pv 1 100, pdStr tv 1 50, parseIsoDate ds,
          pdOptStr (data.lookup "relationship") 50,
          pdOptStr (data.lookup "notes") 500 with
       | some p, some t, some dt, some rel, some nts =>
           if PyFloat.le ⟨0, 0⟩ conf && PyFloat.le conf ⟨1, 0⟩ then
             .ok ⟨p, t, dt, rel, nts, conf, rawInput⟩
           else .error .validationError
       | _, _, _, _, _ => .error .validationError)
  | _, _, _ => .error .validationError

/-- The `/extract` handler: 422 exactly when the extractor returned `None`;
otherwise the `OccasionExtracted` construction with pydantic validation. -/
def extract_endpoint (currentYear : Nat) (reply : Option String)
    (rawInput : String) : Except EPError ExtractedPayload :=
  match extract_occasion_data currentYear reply with
  | none => .error .unprocessable
  | some dc => validateExtracted dc.1 dc.2 rawInput

/-! ## The archived regex-heuristic extractor
(`src/archive/mini-mvp/backend/ai_extractor.py` lines 21–95)

The archived `extract_occasion_data` replaces the LLM call by `re.search`
heuristics.  Searches reuse the candidate-list machinery: `re.search` tries
each start position left to right and commits to the first backtracking
match. -/

/-- `\w` (ASCII model). -/
def wordChar (c : Char) : Bool := c.isAlpha || isDigitC c || c = '_'

/-- `\w+`: greedy, candidates from the whole leading word run down to one
character. -/
def tokWord (l : List Char) : Parses (List Char) :=
  (List.range (runLen wordChar l)).map fun k =>
    (l.take (runLen wordChar l - k), l.drop (runLen wordChar l - k))

/-- An optional literal (`'?`, `s?`, `,?`): greedy, present first. -/
def optTok (c : Char) (l : List Char) : Parses Unit :=
  (match l with
   | a :: rest => if a = c then [((), rest)] else []
   | _ => []) ++ [((), l)]

/-- `\s*`: greedy, candidates from the whole whitespace run down to none. -/
def wsStar (l : List Char) : Parses Unit :=
  (List.range (runLen isPySpace l + 1)).map fun k =>
    ((), l.drop (runLen isPySpace l - k))

def occasionKws : List (List Char) :=
  ["birthday".data, "anniversary".data, "graduation".data, "wedding".data]

/-- `(birthday|anniversary|graduation|wedding)`, alternatives in order. -/
def tokKw (l : List Char) : Parses (List Char) :=
  occasionKws.flatMap fun kw =>
    if kw.isPrefixOf l then [(kw, l.drop kw.length)] else []

/-- Pattern `(\w+)'?s?\s+(birthday|anniversary|graduation|wedding)` at one
position. -/
def personPat1At (l : List Char) : Parses (List Char × List Char) :=
  pBind (tokWord l) fun w r1 =>
  pBind (optTok (Char.ofNat 39) r1) fun _ r2 =>
  pBind (optTok 's' r2) fun _ r3 =>
  pBind (ws1 r3) fun _ r4 =>
  pBind (tokKw r4) fun kw r5 => [((w, kw), r5)]

/-- Fallback pattern `(\w+)\s+(birthday|anniversary|graduation|wedding)`. -/
def personPat2At (l : List Char) : Parses (List Char × List Char) :=
  pBind (tokWord l) fun w r1 =>
  pBind (ws1 r1) fun _ r2 =>
  pBind (tokKw r2) fun kw r3 => [((w, kw), r3)]

/-- `re.search`: earliest start position whose backtracking match
succeeds, committing to the first candidate there. -/
def reSearch (pat : List Char → Parses α) : List Char → Option α
  | [] => ((pat []).head?).map Prod.fst
  | l@(_ :: rest) =>
      match (pat l).head? with
      | some ar => some ar.1
      | none => reSearch pat rest

/-- The two-step person lookup: the possessive pattern, then the bare one. -/
def personSearch (lower : List Char) : Option (List Char × List Char) :=
  match reSearch personPat1At lower with
  | some pm => some pm
  | none => reSearch personPat2At lower

/-- `\d{1,2}`: greedy, two digits then one. -/
def tokD12 (l : List Char) : Parses (List Char) :=
  (match l with
   | a :: b :: rest =>
       if isDigitC a && isDigitC b then [([a, b], rest)] else []
   | _ => []) ++
  (match l with
   | a :: rest => if isDigitC a then [([a], rest)] else []
   | _ => [])

/-- `\d{4}` capturing the digit text. -/
def tokD4 (l : List Char) : Parses (List Char) :=
  match l with
  | a :: b :: c :: d :: rest =>
      if isDigitC a && isDigitC b && isDigitC c && isDigitC d then
        [([a, b, c, d], rest)]
      else []
  | _ => []

/-- `(?:st|nd|rd|th)?`: optional ordinal suffix, alternatives in order,
present first. -/
def tokOrd (l : List Char) : Parses Unit :=
  (["st".data, "nd".data, "rd".data, "th".data].flatMap fun sfx =>
    if sfx.isPrefixOf l then [((), l.drop 2)] else []) ++ [((), l)]

/-- `(\d{4})?`: optional year group. -/
def tokD4Opt (l : List Char) : Parses (Option (List Char)) :=
  (pBind (tokD4 l) fun ds r => [(some ds, r)]) ++ [(none, l)]

/-- `(\d{1,2})/(\d{1,2})/(\d{4})`. -/
def p1At (l : List Char) : Parses (List Char × List Char × List Char) :=
  pBind (tokD12 l) fun a r1 =>
  pBind (litC '/' r1) fun _ r2 =>
  pBind (tokD12 r2) fun b r3 =>
  pBind (litC '/' r3) fun _ r4 =>
  pBind (tokD4 r4) fun c r5 => [((a, b, c), r5)]

/-- `(\d{1,2})/(\d{1,2})`. -/
def p2At (l : List Char) : Parses (List Char × List Char) :=
  pBind (tokD12 l) fun a r1 =>
  pBind (litC '/' r1) fun _ r2 =>
  pBind (tokD12 r2) fun b r3 => [((a, b), r3)]

/-- `(\d{4})-(\d{1,2})-(\d{1,2})`. -/
def p3At (l : List Char) : Parses (List Char × List Char × List Char) :=
  pBind (tokD4 l) fun a r1 =>
  pBind (litC '-' r1) fun _ r2 =>
  pBind (tokD12 r2) fun b r3 =>
  pBind (litC '-' r3) fun _ r4 =>
  pBind (tokD12 r4) fun c r5 => [((a, b, c), r5)]

/-- `(\w+)\s+(\d{1,2})(?:st|nd|rd|th)?,?\s*(\d{4})?`. -/
def p4At (l : List Char) : Parses (List Char × List Char × Option (List Char)) :=
  pBind (tokWord l) fun w r1 =>
  pBind (ws1 r1) fun _ r2 =>
  pBind (tokD12 r2) fun dd r3 =>
  pBind (tokOrd r3) fun _ r4 =>
  pBind (optTok ',' r4) fun _ r5 =>
  pBind (wsStar r5) fun _ r6 =>
  pBind (tokD4Opt r6) fun y r7 => [((w, dd, y), r7)]

/-- `f"{n:02d}"`. -/
def fmt02 (n : Nat) : List Char :=
  if n < 10 then ['0', dc n] else (toString n).data

/-- Python `str.isalpha` (ASCII model). -/
def isAlphaStr (w : List Char) : Bool := !w.isEmpty && w.all Char.isAlpha

/-- `int(w)` for a `\w+` capture: digits with single underscores between
them (PEP 515); anything else raises `ValueError`. -/
def pyInt (w : List Char) : Option Nat :=
  match digitsU w with
  | some (ds, []) => some (digitsToNat ds)
  | _ => none

def nameIndex (names : List (List Char)) (w : List Char) : Option Nat :=
  go names 1
where
  go : List (List Char) → Nat → Option Nat
    | [], _ => none
    | n :: ns, i => if n = w then some i else go ns (i + 1)

/-- `datetime.strptime(w, "%B").month`, falling back to `"%b"`: the whole
capture must equal a month name, case-insensitively. -/
def monthFromName (w : List Char) : Option Nat :=
  match nameIndex monthNamesFull (pyLower w) with
  | some m => some m
  | none => nameIndex monthNamesAbbr (pyLower w)

/-- The date-pattern loop (archived ai_extractor.py lines 50–75): the first
pattern with a search match is processed and the loop breaks.  `.ok none`
means `date_str` stayed `None`; `.error ()` models the uncaught
`ValueError` of `int()` on a non-numeric, non-alphabetic `\w+` capture. -/
def archDateLoop (currentYear : Nat) (text : List Char) :
    Except Unit (Option String) :=
  match reSearch p1At text with
  | some (mo, dy, yr) =>
      .ok (some ⟨yr ++ '-' :: fmt02 (digitsToNat mo) ++
        '-' :: fmt02 (digitsToNat dy)⟩)
  | none =>
  match reSearch p2At text with
  | some (mo, dy) =>
      .ok (some ⟨(toString currentYear).data ++ '-' ::
        fmt02 (digitsToNat mo) ++ '-' :: fmt02 (digitsToNat dy)⟩)
  | none =>
  match reSearch p3At text with
  | some (yr, mo, dy) =>
      .ok (some ⟨dy ++ '-' :: fmt02 (digitsToNat yr) ++
        '-' :: fmt02 (digitsToNat mo)⟩)
  | none =>
  match reSearch p4At text with
  | some (w, dd, some yr) =>
      if isAlphaStr w then
        match monthFromName w with
        | some m =>
            .ok (some ⟨yr ++ '-' :: fmt02 m ++ '-' :: fmt02 (digitsToNat dd)⟩)
        | none => .ok none
      else
        match pyInt w with
        | some n =>
            .ok (some ⟨yr ++ '-' :: fmt02 n ++ '-' :: fmt02 (digitsToNat dd)⟩)
        | none => .error ()
  | some (_, _, none) => .ok none
  | none => .ok none

/-- Python `str.capitalize()`: first character upper, the rest lower. -/
def pyCapitalize : List Char → List Char
  | [] => []
  | c :: rest => c.toUpper :: rest.map Char.toLower

/-- The tomorrow-rollover successor of a date. -/
def nextDay (d : PyDate) : PyDate :=
  if d.day < daysInMonth d.year d.month then ⟨d.year, d.month, d.day + 1⟩
  else if d.month < 12 then ⟨d.year, d.month + 1, 1⟩
  else ⟨d.year + 1, 1, 1⟩

/-- `now + timedelta(days=n)` on the date part. -/
def addDays (d : PyDate) : Nat → PyDate
  | 0 => d
  | n + 1 => nextDay (addDays d n)

/-- The candidate dictionary the archived extractor returns. -/
structure ArchData where
  person : String
  occasion_type : String
  date : String
  relationship : Option String
  notes : String

/-- The archived `OccasionExtractor.extract_occasion_data`: person/keyword
search on the lowercased text, date-pattern loop on the original text with a
today-plus-30-days default, fixed 0.8 confidence. -/
def archExtract (currentYear : Nat) (today : PyDate) (text : String) :
    Except Unit (Option (ArchData × PyFloat)) :=
  match personSearch (pyLower text.data) with
  | none => .ok none
  | some (w, kw) =>
      match archDateLoop currentYear text.data with
      | .error e => .error e
      | .ok dopt =>
          .ok (some
            ({ person := ⟨pyCapitalize w⟩, occasion_type := ⟨kw⟩,
               date := match dopt with
                 | some ds => ds
                 | none => ⟨strftimeYmd (addDays today 30).year
                     (addDays today 30).month (addDays today 30).day⟩,
               relationship := none,
               notes := "Extracted from: " ++ text }, ⟨8, -1⟩))

/-! ## DEFINITIONS END / THEOREMS BEGIN -/

theorem dval_dc (n : Nat) : dval (dc n) = n % 10 := by
  have h : n % 10 < 10 := Nat.mod_lt _ (by omega)
  unfold dc
  interval_cases h' : (n % 10) <;> rfl

theorem isDigitC_dc (n : Nat) : isDigitC (dc n) = true := by
  have h : n % 10 < 10 := Nat.mod_lt _ (by omega)
  unfold dc
  interval_cases h' : (n % 10) <;> rfl

theorem tokY_dc (y : Nat) (hy : y ≤ 9999) (r : List Char) :
    tokY (dc (y / 1000) :: dc (y / 100) :: dc (y / 10) :: dc y :: r) = [(y, r)] := by
  simp [tokY, isDigitC_dc, dval_dc]
  omega

theorem pBind_cons (a : α) (r : List Char) (ts : Parses α) (f : α → List Char → Parses β) :
    pBind ((a, r) :: ts) f = f a r ++ pBind ts f := rfl

theorem pBind_single (a : α) (r : List Char) (f : α → List Char → Parses β) :
    pBind [(a, r)] f = f a r := by
  simp [pBind]

theorem litC_self (c : Char) (r : List Char) : litC c (c :: r) = [((), r)] := by
  simp [litC]

theorem tokM_dc (m : Nat) (hm1 : 1 ≤ m) (hm2 : m ≤ 12) (r : List Char) :
    ∃ ts, tokM (dc (m / 10) :: dc m :: r) = (m, r) :: ts := by
  interval_cases m <;> exact ⟨_, rfl⟩

theorem tokD_dc (d : Nat) (hd1 : 1 ≤ d) (hd2 : d ≤ 31) (r : List Char) :
    ∃ ts, tokD (dc (d / 10) :: dc d :: r) = (d, r) :: ts := by
  interval_cases d <;> exact ⟨_, rfl⟩

theorem isValidYmd_bounds {y m d : Nat} (h : isValidYmd y m d = true) :
    1 ≤ y ∧ y ≤ 9999 ∧ 1 ≤ m ∧ m ≤ 12 ∧ 1 ≤ d ∧ d ≤ 31 := by
  simp only [isValidYmd, Bool.and_eq_true, decide_eq_true_eq] at h
  have hdm : daysInMonth y m ≤ 31 := by
    unfold daysInMonth
    split <;> [split <;> omega; split <;> omega]
  omega

theorem parseYmd_strftime (y m d : Nat) (h : isValidYmd y m d = true) :
    ∃ ts, parseYmd (strftimeYmd y m d) = ((y, m, d), ([] : List Char)) :: ts := by
  obtain ⟨hy1, hy2, hm1, hm2, hd1, hd2⟩ := isValidYmd_bounds h
  obtain ⟨tsM, hM⟩ := tokM_dc m hm1 hm2 ('-' :: dc (d / 10) :: dc d :: [])
  obtain ⟨tsD, hD⟩ := tokD_dc d hd1 hd2 []
  unfold parseYmd strftimeYmd
  rw [tokY_dc y hy2, pBind_single, litC_self, pBind_single, hM, pBind_cons,
    litC_self, pBind_single, hD, pBind_cons]
  exact ⟨_, rfl⟩

theorem strptime_strftime (y m d : Nat) (h : isValidYmd y m d = true) :
    strptimeWith parseYmd (strftimeYmd y m d) = some (y, m, d) := by
  obtain ⟨ts, hts⟩ := parseYmd_strftime y m d h
  unfold strptimeWith
  rw [hts]
  simp [h]

theorem strftime_canonical (y m d : Nat) :
    isCanonicalIsoDate ⟨strftimeYmd y m d⟩ = true := by
  simp [isCanonicalIsoDate, strftimeYmd, isDigitC_dc]

theorem strptimeWith_valid {fmt : List Char → Parses (Nat × Nat × Nat)}
    {l : List Char} {t : Nat × Nat × Nat}
    (h : strptimeWith fmt l = some t) : isValidYmd t.1 t.2.1 t.2.2 = true := by
  unfold strptimeWith at h
  split at h
  · exact absurd h (by simp)
  · split at h
    · rename_i hc
      cases h
      simp only [Bool.and_eq_true] at hc
      exact hc.2
    · exact absurd h (by simp)

theorem tryKnownFormats_valid {l : List Char} {t : Nat × Nat × Nat}
    (h : tryKnownFormats l = some t) : isValidYmd t.1 t.2.1 t.2.2 = true := by
  unfold tryKnownFormats at h
  repeat
    split at h
    · cases h; exact strptimeWith_valid ‹_›
  exact strptimeWith_valid h

theorem normalise_result_parses {cy : Nat} {s r : String}
    (h : pyNormaliseDate cy s = some r) :
    (strptimeWith parseYmd r.data).isSome = true := by
  unfold pyNormaliseDate at h
  by_cases hp : (strptimeWith parseYmd s.data).isSome
  · rw [if_pos hp] at h; cases h; exact hp
  · rw [if_neg hp] at h
    rcases hk : tryKnownFormats (candidateOf cy s) with _ | ⟨⟨y, m, d⟩⟩ <;>
      rw [hk] at h
    · exact absurd h (by simp)
    · cases h
      have hv := tryKnownFormats_valid hk
      show (strptimeWith parseYmd (strftimeYmd y m d)).isSome = true
      rw [strptime_strftime y m d hv]
      rfl


/-- **C2** (amended): `_normalise_date` performs the described coercion —
unchanged `%Y-%m-%d` inputs, delimiter replacement, year prefixing, the
format list in order — and every non-`None` result is a valid calendar date
that parses under `%Y-%m-%d`; results produced by the reformatting path are
canonical zero-padded `YYYY-MM-DD`, but an input accepted by the initial
`%Y-%m-%d` check is returned verbatim and need not be zero-padded. -/
theorem normalise_date_results_parse (cy : Nat) (s r : String)
    (h : pyNormaliseDate cy s = some r) :
    (strptimeWith parseYmd r.data).isSome = true ∧
      (if (strptimeWith parseYmd s.data).isSome then r = s
       else isCanonicalIsoDate r = true) := by
  refine ⟨normalise_result_parses h, ?_⟩
  unfold pyNormaliseDate at h
  by_cases hp : (strptimeWith parseYmd s.data).isSome
  · rw [if_pos hp] at h
    cases h
    simp [hp]
  · rw [if_neg hp] at h
    simp only [Bool.not_eq_true] at hp
    rw [if_neg (by simp [hp])]
    rcases hk : tryKnownFormats (candidateOf cy s) with _ | ⟨⟨y, m, d⟩⟩ <;>
      rw [hk] at h
    · exact absurd h (by simp)
    · cases h
      exact strftime_canonical y m d

/-- **C2 counterexample**: the claim's final sentence fails — `"2025-4-4"`
already parses as `%Y-%m-%d`, is returned unchanged, and is not a
`YYYY-MM-DD`-shaped ISO string. -/
theorem normalise_date_not_always_iso :
    pyNormaliseDate 2025 "2025-4-4" = some "2025-4-4" ∧
      isCanonicalIsoDate "2025-4-4" = false := by
  exact ⟨by decide, by decide⟩

/-- **C2 witness**: `"04/04"` normalises through the reformatting path to
the canonical `"2025-04-04"`. -/
theorem normalise_date_results_parse_witness :
    pyNormaliseDate 2025 "04/04" = some "2025-04-04" ∧
      ((strptimeWith parseYmd "2025-04-04".data).isSome = true ∧
        (if (strptimeWith parseYmd "04/04".data).isSome then "2025-04-04" = "04/04"
         else isCanonicalIsoDate "2025-04-04" = true)) :=
  ⟨by decide, normalise_date_results_parse 2025 "04/04" "2025-04-04" (by decide)⟩

/-- **C7**: the archived copy of `_normalise_date` and the mini-mvp copy
compute the same function at every current year and input string. -/
theorem normalise_date_copies_agree (cy : Nat) (s : String) :
    archNormaliseDate cy s = pyNormaliseDate cy s := rfl

/-- **C8**: `_normalise_date` is idempotent on its successes: a non-`None`
result normalises to itself. -/
theorem normalise_date_idempotent (cy : Nat) (s r : String)
    (h : pyNormaliseDate cy s = some r) :
    pyNormaliseDate cy r = some r := by
  unfold pyNormaliseDate
  rw [if_pos (normalise_result_parses h)]

/-- **C8 witness**: `"4.4"` normalises to `"2025-04-04"`, which normalises to
itself. -/
theorem normalise_date_idempotent_witness :
    pyNormaliseDate 2025 "4.4" = some "2025-04-04" ∧
      pyNormaliseDate 2025 "2025-04-04" = some "2025-04-04" :=
  ⟨by decide, normalise_date_idempotent 2025 "4.4" "2025-04-04" (by decide)⟩


theorem filter_conj_split (l : List α) (p q : α → Bool) :
    l.filter (fun a => p a && q a) = (l.filter p).filter q := by
  rw [List.filter_filter]
  exact List.filter_congr fun a _ => by rw [Bool.and_comm]

theorem isLeap_spec (y : Nat) :
    isLeap y = true ↔ (y % 4 = 0 ∧ (y % 100 ≠ 0 ∨ y % 400 = 0)) := by
  simp [isLeap]

set_option maxHeartbeats 1000000 in
theorem yearDays_succ_true (y : Nat) (hy : 1 ≤ y) (h : isLeap y = true) :
    yearDays (y + 1) = yearDays y + 366 := by
  have h' := (isLeap_spec y).1 h
  unfold yearDays
  omega

set_option maxHeartbeats 1000000 in
theorem yearDays_succ_false (y : Nat) (hy : 1 ≤ y) (h : isLeap y = false) :
    yearDays (y + 1) = yearDays y + 365 := by
  have h' : ¬(y % 4 = 0 ∧ (y % 100 ≠ 0 ∨ y % 400 = 0)) := by
    rw [← isLeap_spec]
    simp [h]
  unfold yearDays
  omega

theorem daysBeforeMonth_day_le {y m d : Nat} (hm1 : 1 ≤ m) (hm2 : m ≤ 12)
    (hd : d ≤ daysInMonth y m) :
    daysBeforeMonth (isLeap y) m + d ≤ 365 + (if isLeap y then 1 else 0) := by
  interval_cases m <;> cases hL : isLeap y <;>
    simp_all [daysBeforeMonth, daysInMonth] <;> omega

set_option maxHeartbeats 1600000 in
theorem daysBeforeMonth_mono {y m1 m2 d1 d2 : Nat} (h12 : m1 < m2)
    (hm1 : 1 ≤ m1) (hm2 : m2 ≤ 12) (hd1 : d1 ≤ daysInMonth y m1)
    (hd2 : 1 ≤ d2) :
    daysBeforeMonth (isLeap y) m1 + d1 < daysBeforeMonth (isLeap y) m2 + d2 := by
  have h1 : m1 ≤ 12 := by omega
  have h2 : 1 ≤ m2 := by omega
  interval_cases m1 <;> interval_cases m2 <;> cases hL : isLeap y <;>
    simp_all [daysBeforeMonth, daysInMonth] <;> omega

theorem yearDays_le_succ (y : Nat) (hy : 1 ≤ y) :
    yearDays y + 365 ≤ yearDays (y + 1) := by
  cases h : isLeap y
  · rw [yearDays_succ_false y hy h]
  · rw [yearDays_succ_true y hy h]; omega

theorem yearDays_mono {y1 y2 : Nat} (h1 : 1 ≤ y1) (h : y1 ≤ y2) :
    yearDays y1 ≤ yearDays y2 := by
  induction y2, h using Nat.le_induction with
  | base => exact Nat.le_refl _
  | succ k hk ih =>
      have := yearDays_le_succ k (by omega)
      omega

theorem dateOrdinal_lt_of_lex {a b : PyDate} (ha : validPyDate a = true)
    (hb : validPyDate b = true) (h : dateLexLt a b = true) :
    dateOrdinal a < dateOrdinal b := by
  obtain ⟨hya, _, hma1, hma2, hda1, _⟩ := isValidYmd_bounds ha
  obtain ⟨hyb, _, hmb1, hmb2, hdb1, _⟩ := isValidYmd_bounds hb
  have hda : a.day ≤ daysInMonth a.year a.month := by
    simp only [validPyDate, isValidYmd, Bool.and_eq_true, decide_eq_true_eq] at ha
    exact ha.2
  have hdb : b.day ≤ daysInMonth b.year b.month := by
    simp only [validPyDate, isValidYmd, Bool.and_eq_true, decide_eq_true_eq] at hb
    exact hb.2
  simp only [dateLexLt, Bool.or_eq_true, Bool.and_eq_true, decide_eq_true_eq] at h
  unfold dateOrdinal
  rcases h with hy | ⟨hy, hm | ⟨hm, hd⟩⟩
  · have e1 : daysBeforeMonth (isLeap a.year) a.month + a.day ≤
        365 + (if isLeap a.year then 1 else 0) :=
      daysBeforeMonth_day_le hma1 hma2 hda
    have e2 : yearDays a.year + 365 + (if isLeap a.year then 1 else 0) =
        yearDays (a.year + 1) := by
      cases hL : isLeap a.year
      · rw [yearDays_succ_false a.year hya hL]
        simp
      · rw [yearDays_succ_true a.year hya hL]
        simp
    have e3 : yearDays (a.year + 1) ≤ yearDays b.year :=
      yearDays_mono (by omega) (by omega)
    have e4 : 0 < daysBeforeMonth (isLeap b.year) b.month + b.day := by omega
    omega
  · have hda' : a.day ≤ daysInMonth b.year a.month := hy ▸ hda
    rw [hy]
    have := daysBeforeMonth_mono (y := b.year) hm (by omega) hmb2 hda' hdb1
    omega
  · rw [hy, hm]
    omega

theorem lex_trichotomy (a b : PyDate) :
    dateLexLt a b = true ∨ a = b ∨ dateLexLt b a = true := by
  cases a; cases b
  simp only [dateLexLt, PyDate.mk.injEq, Bool.or_eq_true, Bool.and_eq_true,
    decide_eq_true_eq]
  omega

theorem upcoming_iff_not_lex {o : OccasionRec} {today : PyDate}
    (h1 : validPyDate o.occasion_date = true) (h2 : validPyDate today = true) :
    isUpcoming o today = true ↔ dateLexLt o.occasion_date today = false := by
  simp only [isUpcoming, daysUntil, decide_eq_true_eq]
  constructor
  · intro h
    cases hlt : dateLexLt o.occasion_date today
    · rfl
    · have := dateOrdinal_lt_of_lex h1 h2 hlt
      omega
  · intro h
    rcases lex_trichotomy o.occasion_date today with hlt | heq | hgt
    · rw [hlt] at h; exact absurd h (by simp)
    · rw [heq]; omega
    · have := dateOrdinal_lt_of_lex h2 h1 hgt
      omega


/-- `get_current_user` rejects with 401 on missing credentials, a token
jose's decode rejects, or a decoded and validated token whose `user_id`
matches no user. -/
theorem gcu_401 (cfg : AppSettings) (now : Nat) (creds : Option JwtToken)
    (users : List UserRec)
    (h : creds = none ∨
      (∃ tok, creds = some tok ∧ jwtDecodeOk cfg now tok = false) ∨
      (∃ tok, creds = some tok ∧ jwtDecodeOk cfg now tok = true ∧
        ∃ td, verifyTokenData tok = some td ∧
          users.find? (fun u => (u.id : Int) = td.user_id) = none)) :
    get_current_user cfg now creds users = .error 401 := by
  rcases h with rfl | ⟨tok, rfl, hbad⟩ | ⟨tok, rfl, hok, td, htd, hfind⟩
  · rfl
  · unfold get_current_user
    simp [hbad]
  · unfold get_current_user
    simp [hok, htd, hfind]

/-- `get_current_user` surfaces an uncaught `ValidationError` (HTTP 500)
when the token decodes but the `TokenData` construction fails. -/
theorem gcu_500 (cfg : AppSettings) (now : Nat) (tok : JwtToken)
    (users : List UserRec)
    (hok : jwtDecodeOk cfg now tok = true)
    (htd : verifyTokenData tok = none) :
    get_current_user cfg now (some tok) users = .error 500 := by
  unfold get_current_user
  simp [hok, htd]

/-- **C3**: dev login performs no identity verification: for every email and
name it returns a token signed with the configured secret and algorithm
whose `sub` is the (looked-up or newly created) user's id, whose `email` is
the user's email, and whose `exp` lies the configured number of hours ahead;
an existing user with that email is reused, otherwise a row with the given
email, name and provider is inserted. -/
theorem dev_login_no_verification (cfg : AppSettings) (now : Nat)
    (inp : UserCreate) (db : List UserRec) :
    (dev_login cfg now inp db).1.access_token.secret = cfg.jwt_secret_key ∧
    (dev_login cfg now inp db).1.access_token.alg = cfg.jwt_algorithm ∧
    (dev_login cfg now inp db).1.access_token.sub =
      some (.subInt (dev_login cfg now inp db).1.user.id) ∧
    (dev_login cfg now inp db).1.access_token.email =
      some (dev_login cfg now inp db).1.user.email ∧
    (dev_login cfg now inp db).1.access_token.exp =
      now + 3600 * cfg.jwt_expiration_hours ∧
    (match db.find? fun x => x.email = inp.email with
     | some u => (dev_login cfg now inp db).1.user = u ∧
         (dev_login cfg now inp db).2 = db
     | none => (dev_login cfg now inp db).1.user =
           { id := freshUserId db, email := inp.email,
             full_name := inp.full_name, provider := inp.provider } ∧
         (dev_login cfg now inp db).2 =
           db ++ [(dev_login cfg now inp db).1.user]) := by
  unfold dev_login get_or_create_user create_access_token
  cases h : db.find? fun x => x.email = inp.email <;> simp [h]

/-- **C4 counterexample**: the token `tokBad` passes jose verification
(matching secret and algorithm, unexpired, string `sub`), its `sub` "abc"
matches no user's id (the only user has id 1), yet both endpoints fail with
500 — pydantic `TokenData` raises on the non-integral `sub` and
`verify_token` catches only `JWTError` — not the 401 the claim states. -/
theorem unauthenticated_requests_counterexample :
    jwtDecodeOk cfgW 0 tokBad = true ∧
    tokBad.sub = some (.subStr "abc") ∧
    userW.id = 1 ∧
    create_occasion cfgW 0 (some tokBad) [userW] [] inpW = (.error 500, []) ∧
    list_occasions cfgW 0 (some tokBad) [userW] [] ⟨none, none, none, false⟩
      ⟨2025, 1, 1⟩ = .error 500 :=
  ⟨rfl, rfl, rfl, rfl, rfl⟩

/-- **C4** (amended): a create or list request fails with 401 and leaves the
occasions store unchanged when it carries no bearer credentials, a token
jose's decode rejects (wrong secret or algorithm, expired, or a `sub` that
is present but not a string — `verify_sub` thus rejects the integer-`sub`
tokens `create_access_token` itself mints), or a decoded token whose
validated `user_id` matches no user's id; a decoded token on which the
`TokenData` construction fails (missing or non-integral `sub`, or missing
or invalid `email`) instead fails with an uncaught validation error (500),
the store again unchanged. -/
theorem unauthenticated_requests_rejected (cfg : AppSettings) (now : Nat)
    (creds : Option JwtToken) (users : List UserRec) (occs : List OccasionRec)
    (inp : ExtractedPayload) (f : OccasionFilter) (today : PyDate) :
    ((creds = none ∨
      (∃ tok, creds = some tok ∧ jwtDecodeOk cfg now tok = false) ∨
      (∃ tok, creds = some tok ∧ jwtDecodeOk cfg now tok = true ∧
        ∃ td, verifyTokenData tok = some td ∧
          users.find? (fun u => (u.id : Int) = td.user_id) = none)) →
      create_occasion cfg now creds users occs inp = (.error 401, occs) ∧
      list_occasions cfg now creds users occs f today = .error 401) ∧
    (∀ tok, creds = some tok → jwtDecodeOk cfg now tok = true →
      verifyTokenData tok = none →
      create_occasion cfg now creds users occs inp = (.error 500, occs) ∧
      list_occasions cfg now creds users occs f today = .error 500) := by
  constructor
  · intro h
    have hg := gcu_401 cfg now creds users h
    unfold create_occasion list_occasions
    rw [hg]
    exact ⟨rfl, rfl⟩
  · intro tok hcreds hok htd
    subst hcreds
    have hg := gcu_500 cfg now tok users hok htd
    unfold create_occasion list_occasions
    rw [hg]
    exact ⟨rfl, rfl⟩

/-- **C4 witness**: a credential-less request is rejected with 401, and a
request bearing the verifying token `tokBad` (non-numeric string `sub`)
fails with 500; the store stays empty in both cases. -/
theorem unauthenticated_requests_rejected_witness :
    (create_occasion cfgW 0 none [userW] [] inpW = (.error 401, []) ∧
     list_occasions cfgW 0 none [userW] [] ⟨none, none, none, false⟩
       ⟨2025, 1, 1⟩ = .error 401) ∧
    (create_occasion cfgW 0 (some tokBad) [userW] [] inpW = (.error 500, []) ∧
     list_occasions cfgW 0 (some tokBad) [userW] [] ⟨none, none, none, false⟩
       ⟨2025, 1, 1⟩ = .error 500) :=
  ⟨(unauthenticated_requests_rejected cfgW 0 none [userW] [] inpW
      ⟨none, none, none, false⟩ ⟨2025, 1, 1⟩).1 (Or.inl rfl),
   (unauthenticated_requests_rejected cfgW 0 (some tokBad) [userW] [] inpW
      ⟨none, none, none, false⟩ ⟨2025, 1, 1⟩).2 tokBad rfl rfl rfl⟩

/-- **C5**: a successful create appends exactly one row, whose mandatory
columns (`owner_id`, `person`, `occasion_type`, `occasion_date`,
`raw_input`) are populated from the authenticated user and the validated
payload (hence non-null by construction), whose optional columns carry the
payload's optional values — the extraction's confidence score included —
and whose `status` takes the declared default `active`. -/
theorem create_occasion_row_shape (cfg : AppSettings) (now : Nat)
    (creds : Option JwtToken) (users : List UserRec) (occs : List OccasionRec)
    (inp : ExtractedPayload) (occ : OccasionRec) (occs' : List OccasionRec)
    (h : create_occasion cfg now creds users occs inp = (.ok occ, occs')) :
    occs' = occs ++ [occ] ∧
    occ.person = inp.person ∧
    occ.occasion_type = inp.occasion_type ∧
    occ.occasion_date = inp.occasion_date ∧
    occ.person_relationship = inp.person_relationship ∧
    occ.notes = inp.notes ∧
    occ.confidence_score = some inp.confidence_score ∧
    occ.status = .active ∧
    occ.raw_input = inp.raw_input ∧
    ∀ u, get_current_user cfg now creds users = .ok u → occ.owner_id = u.id := by
  unfold create_occasion at h
  cases hg : get_current_user cfg now creds users <;> rw [hg] at h
  · exact absurd h (by simp)
  · rw [Prod.mk.injEq] at h
    obtain ⟨h1, h2⟩ := h
    injection h1 with h1
    subst h1 h2
    refine ⟨rfl, rfl, rfl, rfl, rfl, rfl, rfl, rfl, rfl, ?_⟩
    intro u' hu
    injection hu with hu
    subst hu
    rfl


/-- **C5 witness**: a successful create against an authenticated one-user
store appends the expected row with `active` status and the stored
confidence. -/
theorem create_occasion_row_shape_witness :
    [occW] = [] ++ [occW] ∧ occW.status = .active ∧
      occW.confidence_score = some inpW.confidence_score :=
  have h := create_occasion_row_shape cfgW 0 (some tokW) [userW] [] inpW occW
    [occW] (by rfl)
  ⟨h.1, h.2.2.2.2.2.2.2.1, h.2.2.2.2.2.2.1⟩

/-- **C9**: listing is owner-scoped and non-interfering: every returned row
belongs to the authenticated user, and two stores that agree on the user's
rows produce identical listings under every filter combination. -/
theorem list_occasions_owner_scoped (cfg : AppSettings) (now : Nat)
    (creds : Option JwtToken) (users : List UserRec)
    (occs1 occs2 : List OccasionRec) (f : OccasionFilter) (today : PyDate)
    (u : UserRec) (hu : get_current_user cfg now creds users = .ok u)
    (res1 res2 : List OccasionRec)
    (h1 : list_occasions cfg now creds users occs1 f today = .ok res1)
    (h2 : list_occasions cfg now creds users occs2 f today = .ok res2)
    (hagree : occs1.filter (fun o => o.owner_id == u.id) =
        occs2.filter (fun o => o.owner_id == u.id)) :
    (∀ o ∈ res1, o.owner_id = u.id) ∧ res1 = res2 := by
  unfold list_occasions at h1 h2
  rw [hu] at h1 h2
  injection h1 with h1
  injection h2 with h2
  subst h1 h2
  have key : ∀ occs : List OccasionRec,
      occs.filter (matchesFilters f u.id) =
        (occs.filter fun o => o.owner_id == u.id).filter (otherFilters f) := by
    intro occs
    rw [← filter_conj_split]
    exact List.filter_congr fun o _ => rfl
  constructor
  · intro o ho
    have hmem : o ∈ occs1.filter (matchesFilters f u.id) := by
      cases hup : f.upcoming_only <;> rw [hup] at ho
      · simpa using ho
      · simp only [if_pos rfl] at ho
        exact (List.mem_filter.mp ho).1
    have := (List.mem_filter.mp hmem).2
    simp only [matchesFilters, Bool.and_eq_true, beq_iff_eq] at this
    exact this.1
  · rw [key occs1, key occs2, hagree]

/-- **C9 witness**: adding another user's row to the store leaves the
authenticated user's listing unchanged. -/
theorem list_occasions_owner_scoped_witness :
    list_occasions cfgW 0 (some tokW) [userW] [occW, occB]
        ⟨none, none, none, false⟩ ⟨2025, 1, 1⟩ = .ok [occW] ∧
      ([occW] : List OccasionRec) = [occW] :=
  ⟨by rfl,
   (list_occasions_owner_scoped cfgW 0 (some tokW) [userW] [occW] [occW, occB]
      ⟨none, none, none, false⟩ ⟨2025, 1, 1⟩ userW (by rfl) [occW] [occW]
      (by rfl) (by rfl) (by decide)).2⟩

/-- **C10**: `is_upcoming` holds exactly when `days_until` is non-negative,
i.e. exactly when the occasion date is today or later in calendar order; and
with `upcoming_only` set, the listing returns exactly the user's rows that
match the other filters and whose date is today or later. -/
theorem upcoming_semantics (o : OccasionRec) (today : PyDate)
    (ho : validPyDate o.occasion_date = true)
    (ht : validPyDate today = true)
    (cfg : AppSettings) (now : Nat) (creds : Option JwtToken)
    (users : List UserRec) (occs : List OccasionRec) (f : OccasionFilter)
    (u : UserRec) (hu : get_current_user cfg now creds users = .ok u)
    (res : List OccasionRec)
    (hres : list_occasions cfg now creds users occs
        { f with upcoming_only := true } today = .ok res) :
    (isUpcoming o today = true ↔ 0 ≤ daysUntil o today) ∧
    (isUpcoming o today = true ↔ dateLexLt o.occasion_date today = false) ∧
    (o ∈ res ↔ o ∈ occs ∧ matchesFilters f u.id o = true ∧
        dateLexLt o.occasion_date today = false) := by
  refine ⟨by simp [isUpcoming], upcoming_iff_not_lex ho ht, ?_⟩
  unfold list_occasions at hres
  rw [hu] at hres
  injection hres with hres
  subst hres
  show o ∈ (occs.filter (matchesFilters f u.id)).filter
      (fun x => isUpcoming x today) ↔ _
  rw [List.mem_filter, List.mem_filter]
  constructor
  · rintro ⟨⟨hm1, hm2⟩, hup⟩
    exact ⟨hm1, hm2, (upcoming_iff_not_lex ho ht).1 hup⟩
  · rintro ⟨hm1, hm2, hlex⟩
    exact ⟨⟨hm1, hm2⟩, (upcoming_iff_not_lex ho ht).2 hlex⟩

/-- **C10 witness**: the April 4 occasion is upcoming on January 1 and is
listed under `upcoming_only`. -/
theorem upcoming_semantics_witness :
    (isUpcoming occW ⟨2025, 1, 1⟩ = true ↔ 0 ≤ daysUntil occW ⟨2025, 1, 1⟩) ∧
    (isUpcoming occW ⟨2025, 1, 1⟩ = true ↔
      dateLexLt occW.occasion_date ⟨2025, 1, 1⟩ = false) ∧
    (occW ∈ [occW] ↔ occW ∈ [occW] ∧
      matchesFilters ⟨none, none, none, false⟩ userW.id occW = true ∧
      dateLexLt occW.occasion_date ⟨2025, 1, 1⟩ = false) :=
  upcoming_semantics occW ⟨2025, 1, 1⟩ (by decide) (by decide) cfgW 0
    (some tokW) [userW] [occW] ⟨none, none, none, false⟩ userW (by rfl)
    [occW] (by rfl)


theorem lookup_dictPop (kvs : List (String × PyJson)) (k k' : String)
    (h : k' ≠ k) : (dictPop kvs k).lookup k' = kvs.lookup k' := by
  induction kvs with
  | nil => rfl
  | cons kv rest ih =>
      obtain ⟨a, v⟩ := kv
      by_cases hk : a = k
      · subst hk
        have h1 : dictPop ((a, v) :: rest) a = dictPop rest a := by
          simp [dictPop]
        rw [h1, ih]
        have h2 : (k' == a) = false := beq_eq_false_iff_ne.mpr h
        simp [List.lookup, h2]
      · have h1 : dictPop ((a, v) :: rest) k = (a, v) :: dictPop rest k := by
          simp [dictPop, hk]
        rw [h1]
        by_cases he : k' = a
        · simp [List.lookup, he]
        · have h2 : (k' == a) = false := beq_eq_false_iff_ne.mpr he
          simp [List.lookup, h2, ih]

theorem pdStr_jstr {v : PyJson} {mn mx : Nat} {s : String}
    (h : pdStr v mn mx = some s) : v = .jstr s := by
  cases v <;> simp only [pdStr] at h
  case jstr s' =>
    split at h
    · injection h with h
      rw [h]
    · exact absurd h (by simp)
  all_goals exact absurd h (by simp)

theorem required_lookup_isSome {kvs : List (String × PyJson)} {k : String}
    (hreq : (requiredKeys.all fun k => (kvs.lookup k).isSome) = true)
    (hk : k ∈ requiredKeys) : ∃ v, kvs.lookup k = some v := by
  have := List.all_eq_true.mp hreq k hk
  exact Option.isSome_iff_exists.mp this


/-- **C1** (amended): extraction fails — returns `None` — exactly when the
stripped reply lowercases to `null`, is not parseable JSON, is not a JSON
object, lacks a required key, has a confidence `float()` cannot coerce, has
a non-string date, or has a date `_normalise_date` cannot coerce; the
endpoint raises 422 exactly when the extractor returned `None`, and on
success it either returns the extracted fields (when they satisfy the
response schema) or fails with a validation error distinct from 422. -/
theorem extract_spec (cy : Nat) (raw rawInput : String) :
    (extract_occasion_data cy (some raw) = none ↔
      pyLower (pyStrip raw.data) = "null".data ∨
      jsonLoads ⟨pyStrip raw.data⟩ = none ∨
      (∃ v, jsonLoads ⟨pyStrip raw.data⟩ = some v ∧
        ∀ kvs, v ≠ PyJson.jobj kvs) ∨
      (∃ kvs, jsonLoads ⟨pyStrip raw.data⟩ = some (.jobj kvs) ∧
        ((requiredKeys.all fun k => (kvs.lookup k).isSome) = false ∨
         (∃ cv, kvs.lookup "confidence" = some cv ∧ pyFloatOfJson cv = none) ∨
         (∃ dv, kvs.lookup "date" = some dv ∧ ∀ s, dv ≠ PyJson.jstr s) ∨
         (∃ ds, kvs.lookup "date" = some (.jstr ds) ∧
           pyNormaliseDate cy ds = none)))) ∧
    (extract_endpoint cy (some raw) rawInput = .error .unprocessable ↔
      extract_occasion_data cy (some raw) = none) ∧
    (∀ data conf,
      extract_occasion_data cy (some raw) = some (data, conf) →
      extract_endpoint cy (some raw) rawInput = .error .validationError ∨
      ∃ p, extract_endpoint cy (some raw) rawInput = .ok p ∧
        data.lookup "person" = some (.jstr p.person) ∧
        data.lookup "occasion_type" = some (.jstr p.occasion_type) ∧
        (∃ ds, data.lookup "date" = some (.jstr ds) ∧
          parseIsoDate ds = some p.occasion_date) ∧
        pdOptStr (data.lookup "relationship") 50 = some p.person_relationship ∧
        pdOptStr (data.lookup "notes") 500 = some p.notes ∧
        p.confidence_score = conf ∧ p.raw_input = rawInput) := by
  refine ⟨?_, ?_, ?_⟩
  · -- the failure-condition characterisation
    simp only [extract_occasion_data]
    by_cases h0 : pyLower (pyStrip raw.data) = "null".data
    · rw [if_pos h0]
      exact iff_of_true rfl (Or.inl h0)
    · rw [if_neg h0]
      rcases hj : jsonLoads ⟨pyStrip raw.data⟩ with _ | v
      · exact iff_of_true rfl (Or.inr (Or.inl rfl))
      rcases v with _ | b | nv | sv | xs | kvs
      · exact iff_of_true rfl (Or.inr (Or.inr (Or.inl
          ⟨_, rfl, fun kvs hc => by cases hc⟩)))
      · exact iff_of_true rfl (Or.inr (Or.inr (Or.inl
          ⟨_, rfl, fun kvs hc => by cases hc⟩)))
      · exact iff_of_true rfl (Or.inr (Or.inr (Or.inl
          ⟨_, rfl, fun kvs hc => by cases hc⟩)))
      · exact iff_of_true rfl (Or.inr (Or.inr (Or.inl
          ⟨_, rfl, fun kvs hc => by cases hc⟩)))
      · exact iff_of_true rfl (Or.inr (Or.inr (Or.inl
          ⟨_, rfl, fun kvs hc => by cases hc⟩)))
      show extractFromJson cy (PyJson.jobj kvs) = none ↔ _
      simp only [extractFromJson]
      by_cases hreq : (requiredKeys.all fun k => (kvs.lookup k).isSome) = true
      · rw [if_pos hreq]
        obtain ⟨cv, hcv⟩ := required_lookup_isSome (k := "confidence") hreq
          (by simp [requiredKeys])
        rw [hcv]
        show confStage cy kvs cv = none ↔ _
        simp only [confStage]
        rcases hf : pyFloatOfJson cv with _ | conf
        · exact iff_of_true rfl (Or.inr (Or.inr (Or.inr
            ⟨kvs, rfl, Or.inr (Or.inl ⟨cv, hcv, hf⟩)⟩)))
        · show dateStage cy kvs conf = none ↔ _
          simp only [dateStage]
          obtain ⟨dv, hdv⟩ := required_lookup_isSome (k := "date") hreq
            (by simp [requiredKeys])
          rw [lookup_dictPop kvs "confidence" "date" (by decide), hdv]
          rcases dv with _ | b2 | nv2 | ds | xs2 | kvs2
          · exact iff_of_true rfl (Or.inr (Or.inr (Or.inr
              ⟨kvs, rfl, Or.inr (Or.inr (Or.inl
                ⟨_, hdv, fun s hc => by cases hc⟩))⟩)))
          · exact iff_of_true rfl (Or.inr (Or.inr (Or.inr
              ⟨kvs, rfl, Or.inr (Or.inr (Or.inl
                ⟨_, hdv, fun s hc => by cases hc⟩))⟩)))
          · exact iff_of_true rfl (Or.inr (Or.inr (Or.inr
              ⟨kvs, rfl, Or.inr (Or.inr (Or.inl
                ⟨_, hdv, fun s hc => by cases hc⟩))⟩)))
          case _ =>
            show normStage cy kvs conf ds = none ↔ _
            simp only [normStage]
            rcases hn : pyNormaliseDate cy ds with _ | iso
            · exact iff_of_true rfl (Or.inr (Or.inr (Or.inr
                ⟨kvs, rfl, Or.inr (Or.inr (Or.inr ⟨ds, hdv, hn⟩))⟩)))
            · refine iff_of_false (by simp) ?_
              rintro (hc | hc | ⟨v, hv, hne⟩ | ⟨kvs2, hk, hsub⟩)
              · exact h0 hc
              · exact absurd hc (by simp)
              · injection hv with hv
                exact hne kvs hv.symm
              · injection hk with hk
                injection hk with hk
                subst hk
                rcases hsub with hc | ⟨cv2, hcv2, hf2⟩ | ⟨dv2, hdv2, hne⟩ |
                  ⟨ds2, hds2, hn2⟩
                · rw [hreq] at hc
                  exact absurd hc (by simp)
                · rw [hcv] at hcv2
                  injection hcv2 with hcv2
                  subst hcv2
                  rw [hf] at hf2
                  exact absurd hf2 (by simp)
                · rw [hdv] at hdv2
                  injection hdv2 with hdv2
                  exact hne ds hdv2.symm
                · rw [hdv] at hds2
                  injection hds2 with hds2
                  injection hds2 with hds2
                  subst hds2
                  rw [hn] at hn2
                  exact absurd hn2 (by simp)
          all_goals
            exact iff_of_true rfl (Or.inr (Or.inr (Or.inr
              ⟨kvs, rfl, Or.inr (Or.inr (Or.inl
                ⟨_, hdv, fun s hc => by cases hc⟩))⟩)))
      · rw [if_neg hreq]
        exact iff_of_true rfl (Or.inr (Or.inr (Or.inr
          ⟨kvs, rfl, Or.inl (by simpa using hreq)⟩)))
  · -- 422 exactly on extraction failure
    unfold extract_endpoint
    rcases he : extract_occasion_data cy (some raw) with _ | dc
    · simp
    · refine iff_of_false ?_ (by simp)
      intro hcontra
      unfold validateExtracted at hcontra
      repeat' split at hcontra
      all_goals simp_all
  · -- success: schema-validated response or a non-422 validation error
    intro data conf he
    unfold extract_endpoint
    rw [he]
    show validateExtracted data conf rawInput = _ ∨ _
    unfold validateExtracted
    rcases hp : data.lookup "person" with _ | pv
    · exact Or.inl rfl
    rcases ht : data.lookup "occasion_type" with _ | tv
    · exact Or.inl rfl
    rcases hd : data.lookup "date" with _ | dv
    · exact Or.inl rfl
    rcases dv with _ | b' | nv' | ds | xs' | kvs'
    · exact Or.inl rfl
    · exact Or.inl rfl
    · exact Or.inl rfl
    case _ =>
      rcases hps : pdStr pv 1 100 with _ | p
      · exact Or.inl (by simp [hps])
      rcases hts : pdStr tv 1 50 with _ | t
      · exact Or.inl (by simp [hps, hts])
      rcases hds : parseIsoDate ds with _ | dt
      · exact Or.inl (by simp [hps, hts, hds])
      rcases hrel : pdOptStr (data.lookup "relationship") 50 with _ | rel
      · exact Or.inl (by simp [hps, hts, hds, hrel])
      rcases hnts : pdOptStr (data.lookup "notes") 500 with _ | nts
      · exact Or.inl (by simp [hps, hts, hds, hrel, hnts])
      by_cases hc : (PyFloat.le ⟨0, 0⟩ conf && PyFloat.le conf ⟨1, 0⟩) = true
      · refine Or.inr ⟨⟨p, t, dt, rel, nts, conf, rawInput⟩,
          by simp [hp, ht, hd, hps, hts, hds, hrel, hnts, hc],
          ?_, ?_, ⟨ds, rfl, hds⟩, rfl, rfl, rfl, rfl⟩
        · rw [pdStr_jstr hps]
        · rw [pdStr_jstr hts]
      · exact Or.inl (by simp [hp, ht, hd, hps, hts, hds, hrel, hnts, hc])
    all_goals exact Or.inl rfl

/-- **C1 counterexample**: (a) a reply whose JSON object has all required
keys, a normalisable date, and a stripped text distinct from `null`, yet
extraction returns `None` — because `float("high")` raises, a failure case
absent from the claim's "exactly when" list; (b) a reply extracted
successfully with confidence 1.5, on which the endpoint neither raises 422
nor returns the extracted fields, failing response validation instead. -/
theorem extract_spec_counterexample :
    (extract_occasion_data 2025 (some replyBadConf) = none ∧
     pyLower (pyStrip replyBadConf.data) ≠ "null".data ∧
     jsonLoads ⟨pyStrip replyBadConf.data⟩ =
       some (.jobj [("person", .jstr "Ana"), ("occasion_type", .jstr "birthday"),
         ("date", .jstr "2025-04-04"), ("confidence", .jstr "high")]) ∧
     (requiredKeys.all fun k =>
       (([(("person" : String), PyJson.jstr "Ana"),
          ("occasion_type", PyJson.jstr "birthday"),
          ("date", PyJson.jstr "2025-04-04"),
          ("confidence", PyJson.jstr "high")].lookup k).isSome)) = true ∧
     pyNormaliseDate 2025 "2025-04-04" = some "2025-04-04") ∧
    (extract_occasion_data 2025 (some replyHighConf) =
       some ([("person", .jstr "Ana"), ("occasion_type", .jstr "birthday"),
         ("date", .jstr "2025-04-04")], ⟨15, -1⟩) ∧
     extract_endpoint 2025 (some replyHighConf) "x" =
       .error .validationError) :=
  ⟨⟨rfl, by decide, rfl, by decide, by decide⟩, rfl, rfl⟩

/-- **C1 witness**: the endpoint answers 422 on the uncoercible-confidence
reply, by the 422-iff-`None` direction of the specification theorem. -/
theorem extract_spec_witness :
    extract_endpoint 2025 (some replyBadConf) "x" =
      .error .unprocessable :=
  (extract_spec 2025 replyBadConf "x").2.1.mpr rfl


/-- **C6** (amended): the archived extractor returns `None` exactly when the
person/keyword search over the lowercased text finds no match; on success
the candidate's person is the matched word capitalized, its type the
matched keyword, its confidence always 0.8, its relationship `None`, its
notes the tagged input; its date is the date-pattern loop's result,
defaulting to 30 days from today when the loop produces none — which also
happens when the month-name pattern matches without a year; a `YYYY-MM-DD`
match is mis-ordered into `D-YYYY-MM`; and a month-name-pattern match whose
word is neither alphabetic nor integral raises an uncaught error. -/
theorem arch_extract_spec (cy : Nat) (today : PyDate) (text : String) :
    (archExtract cy today text = .ok none ↔
      personSearch (pyLower text.data) = none) ∧
    (∀ d conf, archExtract cy today text = .ok (some (d, conf)) →
      conf = ⟨8, -1⟩ ∧ d.relationship = none ∧
      d.notes = "Extracted from: " ++ text ∧
      (∃ w kw, personSearch (pyLower text.data) = some (w, kw) ∧
        d.person = ⟨pyCapitalize w⟩ ∧ d.occasion_type = ⟨kw⟩) ∧
      (archDateLoop cy text.data = .ok none →
        d.date = ⟨strftimeYmd (addDays today 30).year (addDays today 30).month
          (addDays today 30).day⟩) ∧
      (∀ ds, archDateLoop cy text.data = .ok (some ds) → d.date = ds)) ∧
    (∀ w kw, personSearch (pyLower text.data) = some (w, kw) →
      archDateLoop cy text.data = .error () →
      archExtract cy today text = .error ()) := by
  refine ⟨?_, ?_, ?_⟩
  · unfold archExtract
    rcases hp : personSearch (pyLower text.data) with _ | ⟨w, kw⟩
    · simp
    · rcases hd : archDateLoop cy text.data with _ | dopt <;> simp
  · intro d conf he
    unfold archExtract at he
    rcases hp : personSearch (pyLower text.data) with _ | ⟨w, kw⟩ <;>
      rw [hp] at he
    · exact absurd he (by simp)
    rcases hd : archDateLoop cy text.data with _ | dopt <;> rw [hd] at he
    · exact absurd he (by simp)
    injection he with he
    injection he with he
    rcases dopt with _ | ds <;> cases he
    · exact ⟨rfl, rfl, rfl, ⟨w, kw, rfl, rfl, rfl⟩, fun _ => rfl,
        fun ds hds => by simp at hds⟩
    · exact ⟨rfl, rfl, rfl, ⟨w, kw, rfl, rfl, rfl⟩,
        fun hn => by simp at hn,
        fun ds2 hds => by
          cases hds
          rfl⟩
  · intro w kw hp hd
    unfold archExtract
    rw [hp, hd]

set_option maxRecDepth 4000 in
/-- **C6 counterexample**: (a) "sam birthday 2025-04-05" matches the person
pattern and the `YYYY-MM-DD` date pattern, yet the returned date is the
mis-ordered `05-2025-04` (the code reuses the month/day/year group order),
not a `YYYY-MM-DD` normalisation; (b) "sam birthday march 15" matches the
month-name date pattern, yet falls to the 30-days-from-today default, which
the claim reserves for texts where no date pattern matches. -/
theorem arch_extract_counterexample :
    (archExtract 2025 ⟨2025, 1, 1⟩ "sam birthday 2025-04-05" =
      .ok (some (⟨"Sam", "birthday", "05-2025-04", none,
        "Extracted from: sam birthday 2025-04-05"⟩, ⟨8, -1⟩)) ∧
     isCanonicalIsoDate "05-2025-04" = false) ∧
    (archExtract 2025 ⟨2025, 1, 1⟩ "sam birthday march 15" =
      .ok (some (⟨"Sam", "birthday", "2025-01-31", none,
        "Extracted from: sam birthday march 15"⟩, ⟨8, -1⟩)) ∧
     (reSearch p4At "sam birthday march 15".data).isSome = true) :=
  ⟨⟨rfl, by decide⟩, rfl, rfl⟩

/-- **C6 witness**: a text with no word-keyword occurrence extracts to
nothing, by the no-match direction of the specification theorem. -/
theorem arch_extract_witness :
    archExtract 2025 ⟨2025, 1, 1⟩ "hello world" = .ok none :=
  (arch_extract_spec 2025 ⟨2025, 1, 1⟩ "hello world").1.mpr rfl


end VibeKeeper
